import Mathlib

/-!
Verification of the Shopify fulfillment tool's core: the allocation engine and
the manual toggle (`shopify_tool/analysis.py`) and the rule engine
(`shopify_tool/rules.py`). Pandas DataFrames are embedded as Lean lists of
records; nullable cells (NaN) are embedded as `Option`; pandas/python dict and
Series operations are embedded by list functions that keep the source's
observable behaviour (lookup with default, keep-first deduplication, sorted
group keys, first-match `iloc[0]`). Machine floats never carry fractional
values in this program (quantities and stock levels are integers), so numeric
cells are embedded as `Int` with NaN as `none`.

Sorting note: `sort_values` / sorted `groupby` keys are embedded with
`List.insertionSort` over decidable total orders. Every sort in this program
sorts pairwise-distinct keys under a total order, so the sorted sequence is
unique and the choice of algorithm is observationally irrelevant.
-/

namespace ShopifyTool

/-- Lexicographic `<=` on char lists: Python string comparison (by code point),
used by pandas when sorting string keys. -/
def charListLe : List Char → List Char → Bool
  | [], _ => true
  | _ :: _, [] => false
  | a :: as, b :: bs => if a < b then true else if b < a then false else charListLe as bs

/-- Python string `<=` as a proposition. -/
def strLe (a b : String) : Prop := charListLe a.data b.data = true

instance : DecidableRel strLe := fun a b => by unfold strLe; infer_instance

/-- Lexicographic order on string pairs, used for two-key `groupby` results. -/
def pairLe (a b : String × String) : Prop :=
  if a.1 = b.1 then strLe a.2 b.2 else strLe a.1 b.1

instance : DecidableRel pairLe := fun a b => by unfold pairLe; infer_instance

/-- Streaming keep-first deduplication: keep an element only when its key was
not seen before. -/
def dedupByKeyAux {α κ : Type} [BEq κ] (key : α → κ) (seen : List κ) : List α → List α
  | [] => []
  | x :: xs =>
    if seen.contains (key x) then dedupByKeyAux key seen xs
    else x :: dedupByKeyAux key (key x :: seen) xs

/-- Keep-first deduplication by key: `drop_duplicates(keep="first")` and the
set of distinct keys (in first-occurrence order) of a pandas `groupby`. -/
def dedupByKey {α κ : Type} [BEq κ] (key : α → κ) (l : List α) : List α :=
  dedupByKeyAux key [] l

instance {ε α : Type} [DecidableEq ε] [DecidableEq α] : DecidableEq (Except ε α) := fun a b =>
  match a, b with
  | .ok x, .ok y =>
    if h : x = y then isTrue (by rw [h]) else isFalse (by simp [h])
  | .error x, .error y =>
    if h : x = y then isTrue (by rw [h]) else isFalse (by simp [h])
  | .ok _, .error _ => isFalse (by simp)
  | .error _, .ok _ => isFalse (by simp)

/-- Python `str.lower()` (ASCII scope). -/
def pyLower (s : String) : String := ⟨s.data.map Char.toLower⟩

/-- Python `str.upper()` (ASCII scope). -/
def pyUpper (s : String) : String := ⟨s.data.map Char.toUpper⟩

/-- Substring test: Python `needle in hay`. -/
def hasSub (needle : List Char) : List Char → Bool
  | [] => needle.isEmpty
  | c :: rest => (needle == (c :: rest).take needle.length) || hasSub needle rest

/-- Scanner for `pyTitle`: tracks whether the previous character was a letter. -/
def pyTitleAux (prevAlpha : Bool) : List Char → List Char
  | [] => []
  | c :: rest =>
    (if c.isAlpha then (if prevAlpha then c.toLower else c.toUpper) else c)
      :: pyTitleAux c.isAlpha rest

/-- Python `str.title()`: uppercase each letter that follows a non-letter,
lowercase the other letters (ASCII scope, which covers this program's data). -/
def pyTitle (s : String) : String := ⟨pyTitleAux false s.data⟩

/-- `_generalize_shipping_method` (analysis.py lines 5-31). `none` embeds a
NaN shipping method. -/
def generalizeShippingMethod (method : Option String) : String :=
  match method with
  | none => "Unknown"
  | some m0 =>
    let m := pyLower m0
    if m == "" then "Unknown"
    else if hasSub "dhl".data m.data then "DHL"
    else if hasSub "dpd".data m.data then "DPD"
    else if hasSub "international shipping".data m.data then "PostOne"
    else pyTitle m

/-- An input stock row (`stock_df`): `Артикул` (SKU, nullable), `Име`
(product name, nullable), `Наличност` (stock quantity). -/
structure RawStockRow where
  sku : Option String
  productName : Option String
  stock : Int
deriving DecidableEq

/-- A cleaned stock record (analysis.py lines 104-107). -/
structure StockRec where
  sku : String
  productName : Option String
  stock : Int
deriving DecidableEq

/-- An input order row (`orders_df`): `Name`, `Lineitem sku`,
`Lineitem quantity`, `Shipping Method`, `Shipping Country`, `Tags`, `Notes`.
Nullable text cells are `Option`. The optional `Total` column is not part of
any verified claim and is omitted. -/
structure RawOrderRow where
  name : Option String
  sku : Option String
  quantity : Int
  shippingMethod : Option String
  shippingCountry : Option String
  tags : Option String
  notes : Option String
deriving DecidableEq

/-- A cleaned order line item (analysis.py lines 96-102): renamed columns,
null-SKU rows dropped. -/
structure CleanLine where
  orderNumber : String
  sku : String
  quantity : Int
  shippingMethod : Option String
  shippingCountry : Option String
  tags : Option String
  notes : Option String
deriving DecidableEq

/-- Forward fill of `Name`, `Shipping Method`, `Shipping Country`
(analysis.py lines 78-80): a blank cell inherits the previous non-blank value. -/
def ffillOrders : Option String → Option String → Option String →
    List RawOrderRow → List RawOrderRow
  | _, _, _, [] => []
  | ln, lm, lc, r :: rest =>
    let n := r.name <|> ln
    let m := r.shippingMethod <|> lm
    let c := r.shippingCountry <|> lc
    { r with name := n, shippingMethod := m, shippingCountry := c }
      :: ffillOrders n m c rest

/-- Order cleaning (analysis.py lines 78-102): forward fill, keep the needed
columns, drop rows with null SKU. A row whose forward-filled `Name` is still
null is also dropped here: pandas `groupby` (line 110) excludes NaN keys and
the inner merge with the item counts (lines 111, 143) then drops those rows
from every downstream output, so they are observationally absent. -/
def cleanOrders (orders : List RawOrderRow) : List CleanLine :=
  (ffillOrders none none none orders).filterMap (fun r =>
    match r.name, r.sku with
    | some n, some s =>
      some ⟨n, s, r.quantity, r.shippingMethod, r.shippingCountry, r.tags, r.notes⟩
    | _, _ => none)

/-- Stock cleaning (analysis.py lines 104-107): drop null SKUs, keep the first
record per SKU. -/
def cleanStock (stock : List RawStockRow) : List StockRec :=
  dedupByKey (fun r => r.sku)
    (stock.filterMap (fun r => r.sku.map (fun s => StockRec.mk s r.productName r.stock)))

/-- `live_stock.get(sku, 0)` (analysis.py line 127): dict lookup with default 0. -/
def stockGet (m : List (String × Int)) (sku : String) : Int :=
  match m.find? (fun p => p.1 == sku) with
  | some p => p.2
  | none => 0

/-- `sku in live_stock`: dict key membership. -/
def stockHas (m : List (String × Int)) (sku : String) : Bool :=
  m.any (fun p => p.1 == sku)

/-- `live_stock[sku] -= q` on a present key: pointwise update. -/
def stockDec (m : List (String × Int)) (sku : String) (q : Int) : List (String × Int) :=
  m.map (fun p => if p.1 == sku then (p.1, p.2 - q) else p)

/-- Items per order: `orders_with_counts[orders_with_counts["Order_Number"] == on]`. -/
def orderLines (lines : List CleanLine) (orderNumber : String) : List CleanLine :=
  lines.filter (fun l => l.orderNumber == orderNumber)

/-- `item_count` per order (analysis.py line 110): number of surviving line
items sharing the order number. -/
def itemCount (lines : List CleanLine) (orderNumber : String) : Nat :=
  (orderLines lines orderNumber).length

/-- The sort key order of analysis.py lines 112-116: `item_count` descending,
then `Order_Number` ascending (Python string order). -/
def prioR (lines : List CleanLine) (a b : String) : Prop :=
  itemCount lines b < itemCount lines a ∨
    (itemCount lines a = itemCount lines b ∧ strLe a b)

instance (lines : List CleanLine) : DecidableRel (prioR lines) := fun a b => by
  unfold prioR; infer_instance

/-- `prioritized_orders` (analysis.py lines 112-116): distinct order numbers
(keep-first), sorted by `(item_count desc, order_number asc)`. The sort keys
are pairwise distinct, so the sorted sequence is unique and independent of the
sorting algorithm. -/
def prioritizedOrders (lines : List CleanLine) : List String :=
  List.insertionSort (prioR lines) (dedupByKey id (lines.map (fun l => l.orderNumber)))

/-- The mutable simulation state: `live_stock` and `fulfillment_results`. -/
structure AllocState where
  liveStock : List (String × Int)
  results : List (String × String)
deriving DecidableEq

/-- The allocation loop body for one fulfillable order (analysis.py lines
133-134): `live_stock[item["SKU"]] -= item["Quantity"]` per line item. A SKU
missing from the dict raises `KeyError` in Python, embedded as `.error`. -/
def deductItems : List CleanLine → List (String × Int) → Except String (List (String × Int))
  | [], s => .ok s
  | it :: rest, s =>
    if stockHas s it.sku then deductItems rest (stockDec s it.sku it.quantity)
    else .error ("KeyError: " ++ it.sku)

/-- The availability check of analysis.py lines 125-129: every line item needs
`quantity <= live_stock.get(sku, 0)`. -/
def canFulfillOrder (s : List (String × Int)) (items : List CleanLine) : Bool :=
  items.all (fun it => decide (it.quantity ≤ stockGet s it.sku))

/-- One iteration of the simulation loop (analysis.py lines 121-136):
check the order's lines, then either record `Fulfillable` and deduct every
line, or record `Not Fulfillable` and leave the stock untouched. -/
def allocStep (lines : List CleanLine) (st : AllocState) (orderNumber : String) :
    Except String AllocState :=
  let items := orderLines lines orderNumber
  if canFulfillOrder st.liveStock items then
    match deductItems items st.liveStock with
    | .ok s => .ok ⟨s, st.results ++ [(orderNumber, "Fulfillable")]⟩
    | .error e => .error e
  else
    .ok ⟨st.liveStock, st.results ++ [(orderNumber, "Not Fulfillable")]⟩

/-- The whole simulation loop over the prioritized order sequence. -/
def simulateOrders (lines : List CleanLine) :
    List String → AllocState → Except String AllocState
  | [], st => .ok st
  | o :: rest, st =>
    match allocStep lines st o with
    | .ok st1 => simulateOrders lines rest st1
    | .error e => .error e

/-- `fulfillment_results` dict lookup (`.map` on line 152): `none` embeds a
key that was never written. -/
def resultsLookup (results : List (String × String)) (orderNumber : String) : Option String :=
  (results.find? (fun p => p.1 == orderNumber)).map (fun p => p.2)

/-- One output record of `final_df` (analysis.py lines 142-183), with the
output columns of lines 157-174. `Option` fields embed cells that can be NaN. -/
structure Row where
  orderNumber : Option String
  orderType : Option String
  sku : String
  productName : Option String
  quantity : Int
  stock : Int
  finalStock : Option Int
  stockAlert : Option String
  fulfillmentStatus : Option String
  shippingProvider : Option String
  destinationCountry : Option String
  shippingMethod : Option String
  tags : Option String
  notes : Option String
  systemNote : Option String
  statusNote : Option String
deriving DecidableEq

/-- One row of a summary report (`Name`, `SKU`, `Total Quantity`). -/
structure SummaryRow where
  name : String
  sku : String
  totalQuantity : Int
deriving DecidableEq

/-- One courier entry of `couriers_stats` (analysis.py lines 251-255). -/
structure CourierStat where
  courierId : String
  ordersAssigned : Nat
  repeatedOrdersFound : Nat
deriving DecidableEq

/-- The `stats` dictionary (analysis.py lines 236-258). -/
structure Stats where
  totalOrdersCompleted : Nat
  totalOrdersNotCompleted : Nat
  totalItemsToWriteOff : Int
  totalItemsNotToWriteOff : Int
  couriersStats : Option (List CourierStat)
deriving DecidableEq

/-- `Series.nunique()` over `Order_Number`: count of distinct non-null values. -/
def nuniqueOrders (rows : List Row) : Nat :=
  (dedupByKey id (rows.filterMap (fun r => r.orderNumber))).length

/-- `recalculate_statistics` (analysis.py lines 214-260). `groupby` iterates
providers in sorted order; `couriers_stats` is `none` when no order is
Fulfillable. -/
def recalculateStatistics (df : List Row) : Stats :=
  let completed := df.filter (fun r => r.fulfillmentStatus == some "Fulfillable")
  let notCompleted := df.filter (fun r => r.fulfillmentStatus == some "Not Fulfillable")
  let courierStats :=
    if completed.isEmpty then []
    else
      (List.insertionSort strLe
          (dedupByKey id (completed.map (fun r => r.shippingProvider.getD "Unknown")))).map
        (fun p =>
          let group := completed.filter (fun r => r.shippingProvider.getD "Unknown" == p)
          { courierId := p
            ordersAssigned := nuniqueOrders group
            repeatedOrdersFound :=
              nuniqueOrders (group.filter (fun r => r.systemNote == some "Repeat")) })
  { totalOrdersCompleted := nuniqueOrders completed
    totalOrdersNotCompleted := nuniqueOrders notCompleted
    totalItemsToWriteOff := (completed.map (fun r => r.quantity)).sum
    totalItemsNotToWriteOff := (notCompleted.map (fun r => r.quantity)).sum
    couriersStats := if courierStats.isEmpty then none else some courierStats }

/-- Distinct `(SKU, Product_Name)` group keys in sorted order; `groupby`
silently drops rows whose `Product_Name` is NaN. -/
def summaryKeysOf (rows : List Row) : List (String × String) :=
  List.insertionSort pairLe
    (dedupByKey id (rows.filterMap (fun r => r.productName.map (fun n => (r.sku, n)))))

/-- Group rows by `(SKU, Product_Name)` and sum `Quantity`
(analysis.py lines 187, 202). -/
def groupQuantitySums (rows : List Row) : List SummaryRow :=
  (summaryKeysOf rows).map (fun k =>
    { name := k.2
      sku := k.1
      totalQuantity :=
        ((rows.filter (fun r => r.sku == k.1 && r.productName == some k.2)).map
          (fun r => r.quantity)).sum })

/-- `summary_present_df` (analysis.py lines 186-189). -/
def summaryPresent (rows : List Row) : List SummaryRow :=
  groupQuantitySums (rows.filter (fun r => r.fulfillmentStatus == some "Fulfillable"))

/-- `summary_missing_df` (analysis.py lines 193-206): among Not Fulfillable
rows keep those with `Quantity > Stock`, fill missing product names with
"N/A", group and sum. -/
def summaryMissing (rows : List Row) : List SummaryRow :=
  let notFulfilled := rows.filter (fun r => r.fulfillmentStatus == some "Not Fulfillable")
  let trulyMissing := notFulfilled.filter (fun r => decide (r.stock < r.quantity))
  if trulyMissing.isEmpty then []
  else
    groupQuantitySums
      (trulyMissing.map (fun r => { r with productName := some (r.productName.getD "N/A") }))

/-- The result of `run_analysis`. -/
structure AnalysisOutput where
  rows : List Row
  summaryPresentRows : List SummaryRow
  summaryMissingRows : List SummaryRow
  stats : Stats
deriving DecidableEq

/-- Assembly of one `final_df` row (analysis.py lines 142-183) for a cleaned
line item: left merge with the cleaned stock (line 142), merge with the final
stock levels (line 145), `Final_Stock.fillna(Stock)` (line 146), then
`Stock.fillna(0)` (line 150) — the fill order of the source is kept, so
`finalStock` falls back to the pre-fill (possibly NaN) `Stock` value. -/
def buildRow (lines : List CleanLine) (stockRecs : List StockRec)
    (live : List (String × Int)) (results : List (String × String))
    (history : List String) (l : CleanLine) : Row :=
  let srec := stockRecs.find? (fun r => r.sku == l.sku)
  let provider := generalizeShippingMethod l.shippingMethod
  { orderNumber := some l.orderNumber
    orderType := some (if 1 < itemCount lines l.orderNumber then "Multi" else "Single")
    sku := l.sku
    productName := srec.bind (fun r => r.productName)
    quantity := l.quantity
    stock := (srec.map (fun r => r.stock)).getD 0
    finalStock :=
      match (live.find? (fun p => p.1 == l.sku)).map (fun p => p.2) with
      | some v => some v
      | none => srec.map (fun r => r.stock)
    stockAlert := some ""
    fulfillmentStatus := resultsLookup results l.orderNumber
    destinationCountry := if provider == "DHL" then l.shippingCountry else some ""
    shippingProvider := some provider
    shippingMethod := l.shippingMethod
    tags := l.tags
    notes := l.notes
    systemNote := some (if history.contains l.orderNumber then "Repeat" else "")
    statusNote := some "" }

/-- The initial `live_stock` dict (analysis.py line 118): SKU to stock
quantity, from the cleaned stock records (whose SKUs are pairwise distinct). -/
def liveStockInit (stock : List RawStockRow) : List (String × Int) :=
  (cleanStock stock).map (fun r => (r.sku, r.stock))

/-- `run_analysis` (analysis.py lines 34-211). `history` is the list of order
numbers of `history_df`. A Python exception (the `KeyError` of line 134) is
embedded as `.error`. -/
def runAnalysis (stock : List RawStockRow) (orders : List RawOrderRow)
    (history : List String) : Except String AnalysisOutput :=
  let lines := cleanOrders orders
  let stockRecs := cleanStock stock
  match simulateOrders lines (prioritizedOrders lines) ⟨liveStockInit stock, []⟩ with
  | .error e => .error e
  | .ok st =>
    let rows := lines.map (buildRow lines stockRecs st.liveStock st.results history)
    .ok ⟨rows, summaryPresent rows, summaryMissing rows, recalculateStatistics rows⟩

/-- `df.loc[df["Order_Number"] == order_number]` over the analysis rows. -/
def orderItemsOf (df : List Row) (orderNumber : String) : List Row :=
  df.filter (fun r => r.orderNumber == some orderNumber)

/-- `groupby("SKU")["Quantity"].sum()` over `(sku, quantity)` pairs: distinct
keys in sorted order, each with the summed quantity. -/
def groupSumPairs (pairs : List (String × Int)) : List (String × Int) :=
  (List.insertionSort strLe (dedupByKey id (pairs.map (fun p => p.1)))).map
    (fun sku => (sku, ((pairs.filter (fun p => p.1 == sku)).map (fun p => p.2)).sum))

/-- `order_items.groupby("SKU")["Quantity"].sum()` (analysis.py lines 302, 311). -/
def groupSumBySku (items : List Row) : List (String × Int) :=
  groupSumPairs (items.map (fun r => (r.sku, r.quantity)))

/-- The current status read of analysis.py line 294: the
`Order_Fulfillment_Status` of the first row carrying the order number. -/
def currentStatusOf (df : List Row) (orderNumber : String) : Option String :=
  (df.find? (fun r => r.orderNumber == some orderNumber)).bind (fun r => r.fulfillmentStatus)

/-- `df.loc[df["SKU"] == sku, "Final_Stock"] += quantity` (analysis.py line
306). A NaN cell stays NaN (`Option.map`). -/
def addToSkuStock (df : List Row) (sku : String) (q : Int) : List Row :=
  df.map (fun r =>
    if r.sku == sku then { r with finalStock := r.finalStock.map (fun v => v + q) } else r)

/-- `df.loc[df["SKU"] == sku, "Final_Stock"] -= needed_qty` (analysis.py line 341). -/
def subFromSkuStock (df : List Row) (sku : String) (q : Int) : List Row :=
  df.map (fun r =>
    if r.sku == sku then { r with finalStock := r.finalStock.map (fun v => v - q) } else r)

/-- `df.loc[df["Order_Number"] == order_number, "Order_Fulfillment_Status"] =
new_status` (analysis.py line 344). -/
def setOrderStatus (df : List Row) (orderNumber status : String) : List Row :=
  df.map (fun r =>
    if r.orderNumber == some orderNumber then { r with fulfillmentStatus := some status } else r)

/-- The pre-flight check of analysis.py lines 314-324: a SKU absent from the
row set is skipped (`continue`), otherwise the first row's `Final_Stock` is
compared with the needed quantity; a NaN `Final_Stock` never compares greater,
so it is never lacking. -/
def lackingSkus (df : List Row) (itemsNeeded : List (String × Int)) : List String :=
  (itemsNeeded.filter (fun p =>
    match (df.find? (fun r => r.sku == p.1)).bind (fun r => r.finalStock) with
    | some v => decide (v < p.2)
    | none => false)).map (fun p => p.1)

/-- The synthesized placeholder row of analysis.py lines 335-337: every column
None except `SKU`, `Quantity = 0`, `Stock = 0`, `Final_Stock = 0` (the values
copied from the template row are overwritten by the `update` call). -/
def placeholderRow (sku : String) : Row :=
  { orderNumber := none, orderType := none, sku := sku, productName := none,
    quantity := 0, stock := 0, finalStock := some 0, stockAlert := none,
    fulfillmentStatus := none, shippingProvider := none, destinationCountry := none,
    shippingMethod := none, tags := none, notes := none, systemNote := none,
    statusNote := none }

/-- The deduction loop of analysis.py lines 331-341: per needed SKU, append a
placeholder row when the SKU occurs nowhere in the (current) row set, then
decrement `Final_Stock` on every row carrying the SKU. -/
def forceDeduct (itemsNeeded : List (String × Int)) (df : List Row) : List Row :=
  itemsNeeded.foldl (fun d p =>
    let d1 := if d.all (fun r => !(r.sku == p.1)) then d ++ [placeholderRow p.1] else d
    subFromSkuStock d1 p.1 p.2) df

/-- The error message of analysis.py line 327. -/
def insufficientStockMessage (skus : List String) : String :=
  "Cannot force fulfill. Insufficient stock for SKUs: " ++ String.intercalate ", " skus

/-- `toggle_order_fulfillment` (analysis.py lines 263-346), for a non-None
DataFrame. Returns `(success, error_message, updated_df)`. -/
def toggleOrderFulfillment (df : List Row) (orderNumber : String) :
    Bool × Option String × List Row :=
  if df.all (fun r => !(r.orderNumber == some orderNumber)) then
    (false, some "Order number not found.", df)
  else if currentStatusOf df orderNumber == some "Fulfillable" then
    let stockToReturn := groupSumBySku (orderItemsOf df orderNumber)
    let d1 := stockToReturn.foldl (fun d p => addToSkuStock d p.1 p.2) df
    (true, none, setOrderStatus d1 orderNumber "Not Fulfillable")
  else
    let itemsNeeded := groupSumBySku (orderItemsOf df orderNumber)
    let lacking := lackingSkus df itemsNeeded
    if lacking.isEmpty then
      (true, none, setOrderStatus (forceDeduct itemsNeeded df) orderNumber "Fulfillable")
    else
      (false, some (insufficientStockMessage lacking), df)

/-- A DataFrame cell for the schema-generic rule engine: string, integer,
boolean, or NaN/None. -/
inductive CellVal where
  | str (s : String)
  | num (n : Int)
  | bool (b : Bool)
  | null
deriving DecidableEq

/-- A generic DataFrame for the rule engine: named columns and rows of
per-column cells. -/
structure RTable where
  cols : List String
  rows : List (List (String × CellVal))
deriving DecidableEq

/-- Read one cell of a row by column name. -/
def getCell (row : List (String × CellVal)) (field : String) : CellVal :=
  match row.find? (fun p => p.1 == field) with
  | some p => p.2
  | none => .null

/-- Write one cell of a row by column name. -/
def setCell (row : List (String × CellVal)) (field : String) (v : CellVal) :
    List (String × CellVal) :=
  row.map (fun p => if p.1 == field then (p.1, v) else p)

/-- `df[col] = default` for a column that does not exist yet. -/
def addColumn (t : RTable) (field : String) (dflt : CellVal) : RTable :=
  if t.cols.contains field then t
  else { cols := t.cols ++ [field], rows := t.rows.map (fun r => r ++ [(field, dflt)]) }

/-- One rule condition (`{field, operator, value}`). A missing (None) `field`
or `operator` is embedded as `""`: both are falsy in the Python usability
check of rules.py line 196. -/
structure Condition where
  field : String
  operator : String
  value : CellVal
deriving DecidableEq

/-- One rule action (`{type, value}`). -/
structure RAction where
  type : String
  value : CellVal
deriving DecidableEq

/-- One rule (`{match, conditions, actions}`); a missing `match` key is
embedded as the default "ALL" (rules.py line 183). -/
structure Rule where
  matchType : String
  conditions : List Condition
  actions : List RAction
deriving DecidableEq

/-- The keys of `OPERATOR_MAP` (rules.py lines 22-33). -/
def OPERATOR_MAP : List String :=
  ["equals", "does not equal", "contains", "does not contain", "is greater than",
   "is less than", "starts with", "ends with", "is empty", "is not empty"]

/-- `pd.to_numeric(x, errors="coerce")` on one cell (integer scope). -/
def cellToNumeric : CellVal → Option Int
  | .num n => some n
  | .bool b => some (if b then 1 else 0)
  | .str s => s.toInt?
  | .null => none

/-- `_op_equals` on one cell (rules.py lines 38-40): pandas elementwise `==` —
NaN equals nothing, mismatched types compare unequal. -/
def cellEquals : CellVal → CellVal → Bool
  | .str a, .str b => a == b
  | .num a, .num b => a == b
  | .bool a, .bool b => a == b
  | _, _ => false

/-- `_op_contains` (rules.py lines 48-51): case-insensitive substring with
`na=False`; non-string cells are embedded as non-matching. -/
def cellContains (cell v : CellVal) : Bool :=
  match cell, v with
  | .str s, .str t => hasSub (pyLower t).data (pyLower s).data
  | _, _ => false

/-- `_op_starts_with` (rules.py lines 69-71): case-sensitive, `na=False`. -/
def cellStarts (cell v : CellVal) : Bool :=
  match cell, v with
  | .str s, .str t => t.data == s.data.take t.data.length
  | _, _ => false

/-- `_op_ends_with` (rules.py lines 74-76): case-sensitive, `na=False`. -/
def cellEnds (cell v : CellVal) : Bool :=
  match cell, v with
  | .str s, .str t => t.data == s.data.drop (s.data.length - t.data.length)
  | _, _ => false

/-- `_op_is_empty` (rules.py lines 79-81): null or empty string. -/
def cellIsEmpty : CellVal → Bool
  | .null => true
  | .str s => s == ""
  | _ => false

/-- Operator dispatch (`OPERATOR_MAP` → `globals()[op_func_name]`, rules.py
lines 199-201), applied to one row's cell. -/
def evalOperator (opName : String) (cell v : CellVal) : Bool :=
  if opName == "equals" then cellEquals cell v
  else if opName == "does not equal" then !(cellEquals cell v)
  else if opName == "contains" then cellContains cell v
  else if opName == "does not contain" then !(cellContains cell v)
  else if opName == "is greater than" then
    match cellToNumeric cell, cellToNumeric v with
    | some a, some b => decide (b < a)
    | _, _ => false
  else if opName == "is less than" then
    match cellToNumeric cell, cellToNumeric v with
    | some a, some b => decide (a < b)
    | _, _ => false
  else if opName == "starts with" then cellStarts cell v
  else if opName == "ends with" then cellEnds cell v
  else if opName == "is empty" then cellIsEmpty cell
  else if opName == "is not empty" then !(cellIsEmpty cell)
  else false

/-- The usability check of rules.py line 196:
`all([field, operator, field in df.columns, operator in OPERATOR_MAP])`. -/
def usableCondition (cols : List String) (c : Condition) : Bool :=
  !(c.field == "") && !(c.operator == "") &&
    cols.contains c.field && OPERATOR_MAP.contains c.operator

/-- The per-row condition result vector (rules.py lines 190-201): unusable
conditions are skipped (`continue`). -/
def conditionResults (cols : List String) (conds : List Condition)
    (row : List (String × CellVal)) : List Bool :=
  conds.filterMap (fun c =>
    if usableCondition cols c then some (evalOperator c.operator (getCell row c.field) c.value)
    else none)

/-- `_get_matching_rows` restricted to one row (rules.py lines 167-212): no
conditions or no usable conditions → False; otherwise AND for `match: ALL`,
OR otherwise. All operators act elementwise, so the boolean mask is the
row-wise map of this function. -/
def matchRow (cols : List String) (rule : Rule) (row : List (String × CellVal)) : Bool :=
  if rule.conditions.isEmpty then false
  else
    let results := conditionResults cols rule.conditions row
    if results.isEmpty then false
    else if pyUpper rule.matchType == "ALL" then results.all id
    else results.any id

/-- `_get_matching_rows` (rules.py lines 167-212): the boolean mask over rows. -/
def getMatchingRows (t : RTable) (rule : Rule) : List Bool :=
  t.rows.map (matchRow t.cols rule)

/-- Prepend a character to the first token of a split result. -/
def consHead (c : Char) : List (List Char) → List (List Char)
  | [] => [[c]]
  | t :: ts => (c :: t) :: ts

/-- Python `value.split(", ")`: leftmost split on the two-character separator
comma-space. -/
def splitCS : List Char → List (List Char)
  | [] => [[]]
  | [c] => [[c]]
  | c1 :: c2 :: rest =>
    if c1 = ',' ∧ c2 = ' ' then [] :: splitCS rest
    else consHead c1 (splitCS (c2 :: rest))

/-- Python `note.split(", ")` on strings. -/
def pySplitCommaSpace (s : String) : List String :=
  (splitCS s.data).map (fun l => String.mk l)

/-- `append_note` (rules.py lines 236-239) for a string tag value: keep the
note when the value occurs in its comma-space split, otherwise append
comma-separated (bare when the note is empty). -/
def appendNote (value note : String) : String :=
  if (pySplitCommaSpace note).contains value then note
  else if note == "" then value
  else note ++ ", " ++ value

/-- `Status_Note` read with `.fillna("").astype(str)` (rules.py line 233). -/
def cellNoteString : CellVal → String
  | .str s => s
  | .num n => toString n
  | .bool b => if b then "True" else "False"
  | .null => ""

/-- Python `f"{value}"` for the tag value. -/
def cellFString : CellVal → String
  | .str s => s
  | .num n => toString n
  | .bool b => if b then "True" else "False"
  | .null => "None"

/-- `append_note` for an arbitrary tag value: a non-string value is never a
member of the string list `note.split(", ")`, so it is always appended. -/
def appendNoteCell (value : CellVal) (note : String) : String :=
  match value with
  | .str v => appendNote v note
  | v => if note == "" then cellFString v else note ++ ", " ++ cellFString v

/-- One action of `_execute_actions` (rules.py lines 227-264) applied to the
masked rows. String concatenation with a NaN note (`EXCLUDE_SKU`) yields NaN. -/
def executeAction (t : RTable) (mask : List Bool) (a : RAction) : RTable :=
  let ty := pyUpper a.type
  if ty == "ADD_TAG" then
    { t with rows := (t.rows.zip mask).map (fun p =>
        if p.2 then
          setCell p.1 "Status_Note"
            (.str (appendNoteCell a.value (cellNoteString (getCell p.1 "Status_Note"))))
        else p.1) }
  else if ty == "SET_STATUS" then
    { t with rows := (t.rows.zip mask).map (fun p =>
        if p.2 then setCell p.1 "Order_Fulfillment_Status" a.value else p.1) }
  else if ty == "SET_PRIORITY" then
    { t with rows := (t.rows.zip mask).map (fun p =>
        if p.2 then setCell p.1 "Priority" a.value else p.1) }
  else if ty == "EXCLUDE_FROM_REPORT" then
    { t with rows := (t.rows.zip mask).map (fun p =>
        if p.2 then setCell p.1 "_is_excluded" (.bool true) else p.1) }
  else if ty == "EXCLUDE_SKU" then
    if t.cols.contains "SKU" && t.cols.contains "Quantity" then
      { t with rows := (t.rows.zip mask).map (fun p =>
          if p.2 && cellEquals (getCell p.1 "SKU") a.value then
            setCell (setCell p.1 "Quantity" (.num 0)) "Status_Note"
              (match getCell p.1 "Status_Note" with
               | .str s => .str (s ++ " SKU_EXCLUDED")
               | _ => .null)
          else p.1) }
    else t
  else t

/-- Does the rule list require the given action column
(`_prepare_df_for_actions`, rules.py lines 145-157)? -/
def rulesNeedColumn (rules : List Rule) (col : String) : Bool :=
  rules.any (fun r => r.actions.any (fun a =>
    let ty := pyUpper a.type
    (ty == "SET_PRIORITY" && col == "Priority") ||
    (ty == "EXCLUDE_FROM_REPORT" && col == "_is_excluded") ||
    ((ty == "EXCLUDE_SKU" || ty == "ADD_TAG") && col == "Status_Note")))

/-- `_prepare_df_for_actions` (rules.py lines 133-165): lazily create the
needed action columns with their defaults. -/
def prepareForActions (rules : List Rule) (t : RTable) : RTable :=
  let t1 := if rulesNeedColumn rules "Priority" then addColumn t "Priority" (.str "Normal") else t
  let t2 :=
    if rulesNeedColumn rules "_is_excluded" then addColumn t1 "_is_excluded" (.bool false) else t1
  if rulesNeedColumn rules "Status_Note" then addColumn t2 "Status_Note" (.str "") else t2

/-- One iteration of the rule application loop (rules.py lines 123-129):
compute the mask once, and execute the actions only when some row is masked. -/
def applyRule (t : RTable) (rule : Rule) : RTable :=
  let mask := getMatchingRows t rule
  if mask.any id then rule.actions.foldl (fun acc a => executeAction acc mask a) t
  else t

/-- `RuleEngine.apply` (rules.py lines 102-131): empty rule list is the
identity; otherwise prepare the action columns and fold the rules in order. -/
def applyRules (rules : List Rule) (t : RTable) : RTable :=
  if rules.isEmpty then t
  else rules.foldl applyRule (prepareForActions rules t)

/-- Modelled from the spec wording "a condition whose operator is unrecognized
or whose field is absent from the row set is ... treated as never matching":
an unusable condition contributes an all-False result vector (instead of being
dropped from the condition list as the source does). Comparison definition for
the refinement check of that wording against `getMatchingRows`. -/
def getMatchingRowsNeverMatch (t : RTable) (rule : Rule) : List Bool :=
  t.rows.map (fun row =>
    if rule.conditions.isEmpty then false
    else
      let results := rule.conditions.map (fun c =>
        if usableCondition t.cols c then evalOperator c.operator (getCell row c.field) c.value
        else false)
      if pyUpper rule.matchType == "ALL" then results.all id
      else results.any id)

/-- Total quantity of the given line items carrying the given SKU. -/
def linesSkuSum (ls : List CleanLine) (k : String) : Int :=
  ((ls.filter (fun l => l.sku == k)).map (fun l => l.quantity)).sum

/-- Total quantity over line items with the given SKU whose order is recorded
`Fulfillable` in the result map. -/
def fulfilledLineQty (lines : List CleanLine) (results : List (String × String))
    (k : String) : Int :=
  ((lines.filter (fun l =>
    l.sku == k && resultsLookup results l.orderNumber == some "Fulfillable")).map
      (fun l => l.quantity)).sum

/-- Total quantity over output rows with the given SKU whose order is
`Fulfillable`: the "sum of quantity over all Fulfillable lines carrying the
SKU". -/
def fulfilledSkuQty (rows : List Row) (k : String) : Int :=
  ((rows.filter (fun r =>
    r.sku == k && r.fulfillmentStatus == some "Fulfillable")).map (fun r => r.quantity)).sum

/-- Total quantity demanded at the given SKU by the multi-item orders
(`item_count ≥ 2`) of the batch. -/
def multiDemand (lines : List CleanLine) (k : String) : Int :=
  ((lines.filter (fun l =>
    l.sku == k && decide (2 ≤ itemCount lines l.orderNumber))).map (fun l => l.quantity)).sum

/-- Total quantity demanded at the given SKU by the orders in the given list. -/
def demandIn (lines : List CleanLine) (ons : List String) (k : String) : Int :=
  ((lines.filter (fun l =>
    l.sku == k && ons.contains l.orderNumber)).map (fun l => l.quantity)).sum

/-- Equality of every `Row` field except `finalStock` and
`fulfillmentStatus`: the frame of a successful manual toggle. -/
def sameRowFrame (a b : Row) : Prop :=
  a.orderNumber = b.orderNumber ∧ a.orderType = b.orderType ∧ a.sku = b.sku ∧
  a.productName = b.productName ∧ a.quantity = b.quantity ∧ a.stock = b.stock ∧
  a.stockAlert = b.stockAlert ∧ a.shippingProvider = b.shippingProvider ∧
  a.destinationCountry = b.destinationCountry ∧ a.shippingMethod = b.shippingMethod ∧
  a.tags = b.tags ∧ a.notes = b.notes ∧ a.systemNote = b.systemNote ∧
  a.statusNote = b.statusNote

/-- A sample analysis row used by concrete instantiations. -/
def mkSampleRow (onum : String) (otype : String) (sku : String) (qty : Int)
    (stock : Int) (finalStock : Int) (status : String) : Row :=
  { orderNumber := some onum, orderType := some otype, sku := sku,
    productName := some sku, quantity := qty, stock := stock,
    finalStock := some finalStock, stockAlert := some "",
    fulfillmentStatus := some status, shippingProvider := some "DHL",
    destinationCountry := some "BG", shippingMethod := some "dhl",
    tags := some "", notes := some "", systemNote := some "", statusNote := some "" }

/-- The fixture of `test_analysis.py::sample_analysis_df`: order 1001 is
Fulfillable with lines SKU-A:1 and SKU-B:2, order 1002 is Not Fulfillable with
line SKU-A:3; `Final_Stock` is 6 for SKU-A and 8 for SKU-B. -/
def sampleAnalysisDf : List Row :=
  [ mkSampleRow "1001" "Multi" "SKU-A" 1 10 6 "Fulfillable",
    mkSampleRow "1001" "Multi" "SKU-B" 2 10 8 "Fulfillable",
    mkSampleRow "1002" "Single" "SKU-A" 3 10 6 "Not Fulfillable" ]

/-- The same fixture with `Final_Stock` of SKU-A lowered to 2, so that
force-fulfilling order 1002 (needs 3) fails. -/
def shortStockDf : List Row :=
  [ mkSampleRow "1001" "Multi" "SKU-A" 1 10 2 "Fulfillable",
    mkSampleRow "1001" "Multi" "SKU-B" 2 10 8 "Fulfillable",
    mkSampleRow "1002" "Single" "SKU-A" 3 10 2 "Not Fulfillable" ]

/-- A one-row rule-engine table: `Tags = "x"`, `Status_Note = ""`. -/
def sampleTable : RTable :=
  { cols := ["Tags", "Status_Note"],
    rows := [[("Tags", .str "x"), ("Status_Note", .str "")]] }

/-- An `ADD_TAG` rule whose single condition matches `Tags = "x"`. -/
def sampleAddTagRule (v : String) : Rule :=
  { matchType := "ALL",
    conditions := [⟨"Tags", "equals", .str "x"⟩],
    actions := [⟨"ADD_TAG", .str v⟩] }

/-- An ALL-match rule with one unusable condition (field `Nope` absent from
`sampleTable`) and one usable condition that matches `Tags = "x"`. -/
def mixedConditionRule : Rule :=
  { matchType := "ALL",
    conditions := [⟨"Nope", "equals", .str "q"⟩, ⟨"Tags", "equals", .str "x"⟩],
    actions := [⟨"ADD_TAG", .str "t"⟩] }

/-- A rule whose conditions are all unusable (unrecognized operator, and a
field absent from `sampleTable`). -/
def unusableConditionsRule : Rule :=
  { matchType := "ALL",
    conditions := [⟨"Tags", "matches regex", .str "x"⟩, ⟨"Nope", "equals", .str "x"⟩],
    actions := [⟨"ADD_TAG", .str "t"⟩] }

/-- Stock input for the priority scenario: exactly enough for the two
multi-item orders (M1 needs A:1+B:1, M2 needs A:1+C:1), nothing left for the
single-item orders S1 (A:1) and S2 (B:1). -/
def prioStock : List RawStockRow :=
  [⟨some "A", some "Item A", 2⟩, ⟨some "B", some "Item B", 1⟩, ⟨some "C", some "Item C", 1⟩]

/-- Orders input for the priority scenario. -/
def prioOrders : List RawOrderRow :=
  [ ⟨some "M2", some "A", 1, some "dhl", some "BG", some "", some ""⟩,
    ⟨some "M2", some "C", 1, some "dhl", some "BG", some "", some ""⟩,
    ⟨some "S1", some "A", 1, some "dpd", some "BG", some "", some ""⟩,
    ⟨some "M1", some "A", 1, some "dhl", some "BG", some "", some ""⟩,
    ⟨some "M1", some "B", 1, some "dhl", some "BG", some "", some ""⟩,
    ⟨some "S2", some "B", 1, some "dpd", some "BG", some "", some ""⟩ ]

/-- A single order line whose SKU is absent from the stock file. -/
def orphanLine (qty : Int) : RawOrderRow :=
  ⟨some "O1", some "Z", qty, none, none, none, none⟩

/-- The output rows of a run, empty when the run raised. -/
def outputRows (e : Except String AnalysisOutput) : List Row :=
  match e with
  | .ok out => out.rows
  | .error _ => []

/-- A one-SKU stock file used to instantiate the final-stock invariant. -/
def c1Stock : List RawStockRow :=
  [⟨some "A", some "Item A", 5⟩]

/-- Two orders over that stock: O1 takes 2 of A (Fulfillable), O2 wants the
unlisted SKU Z (Not Fulfillable). -/
def c1Orders : List RawOrderRow :=
  [ ⟨some "O1", some "A", 2, some "dhl", some "BG", some "", some ""⟩,
    ⟨some "O2", some "Z", 1, some "dpd", some "BG", some "", some ""⟩ ]

/-- The (successful) analysis output on `c1Stock`/`c1Orders`. -/
def c1Out : AnalysisOutput :=
  (runAnalysis c1Stock c1Orders []).toOption.getD ⟨[], [], [], ⟨0, 0, 0, 0, none⟩⟩

/-- The first output row of that run (SKU A). -/
def c1Row : Row :=
  c1Out.rows.getD 0 (placeholderRow "")

/-! ## General lemmas -/

theorem isEmpty_false_ne_nil {α : Type} {l : List α} (h : l.isEmpty = false) : l ≠ [] := by
  cases l with
  | nil => simp [List.isEmpty] at h
  | cons x xs => simp

/-! ## C6: the allocation engine is not total -/

/-- C6: the empty-input half of the claim holds (empty rows, all-zero stats,
`couriers_stats = none`), but the engine is not total: an order consisting of
one line with quantity 0 whose SKU `Z` is absent from the stock file passes
the availability check (`0 ≤ live_stock.get("Z", 0)`), and the deduction
`live_stock["Z"] -= 0` then raises `KeyError` (analysis.py line 134), so the
run throws instead of marking the order Fulfillable. -/
theorem runAnalysis_keyError_on_zero_qty_unknown_sku :
    runAnalysis [] [] [] = .ok ⟨[], [], [], ⟨0, 0, 0, 0, none⟩⟩ ∧
      runAnalysis [] [orphanLine 0] [] = .error "KeyError: Z" :=
  ⟨by decide, by decide⟩

/-! ## C7: failure kinds of the manual toggle -/

/-- C7 (amended): whenever the toggle returns `success = false` the returned
row set is the unchanged input, and the error is one of exactly two kinds:
`"Order number not found."` (analysis.py lines 290-291) or the
insufficient-stock error naming the short SKUs (line 327). -/
theorem toggle_failure_unchanged_and_kinds (df : List Row) (orderNumber : String)
    (b : Bool) (e : Option String) (d : List Row)
    (h : toggleOrderFulfillment df orderNumber = (b, e, d)) (hb : b = false) :
    d = df ∧
      (e = some "Order number not found." ∨
        (e = some (insufficientStockMessage
            (lackingSkus df (groupSumBySku (orderItemsOf df orderNumber)))) ∧
          lackingSkus df (groupSumBySku (orderItemsOf df orderNumber)) ≠ [])) := by
  subst hb
  rw [toggleOrderFulfillment] at h
  dsimp only at h
  split at h
  · simp only [Prod.mk.injEq] at h
    exact ⟨h.2.2.symm, Or.inl h.2.1.symm⟩
  · split at h
    · simp at h
    · split at h
      · simp at h
      · simp only [Prod.mk.injEq] at h
        refine ⟨h.2.2.symm, Or.inr ⟨h.2.1.symm, ?_⟩⟩
        next hemp => exact isEmpty_false_ne_nil (Bool.of_not_eq_true hemp)

/-- Witness: the toggle theorem applied to the not-found failure on the empty
row set. -/
theorem toggle_failure_unchanged_and_kinds_witness :
    ([] : List Row) = [] ∧
      ((some "Order number not found." : Option String) = some "Order number not found." ∨
        ((some "Order number not found." : Option String) = some (insufficientStockMessage
            (lackingSkus [] (groupSumBySku (orderItemsOf [] "O1")))) ∧
          lackingSkus [] (groupSumBySku (orderItemsOf [] "O1")) ≠ [])) :=
  toggle_failure_unchanged_and_kinds [] "O1" false (some "Order number not found.") []
    (by decide) rfl

/-- C7 counterexample: the not-found failure is a second reportable error
kind; its message is not an insufficient-stock message for any SKU list (the
insufficient-stock prefix alone is longer than the whole message). -/
theorem toggle_not_found_error_is_second_kind :
    toggleOrderFulfillment [] "O1" = (false, some "Order number not found.", []) ∧
      ¬ ∃ skus : List String, skus ≠ [] ∧
        "Order number not found." = insufficientStockMessage skus := by
  refine ⟨by decide, ?_⟩
  rintro ⟨skus, -, h⟩
  have hlen := congrArg String.length h
  rw [insufficientStockMessage, String.length_append] at hlen
  have h1 : ("Order number not found." : String).length = 23 := by decide
  have h2 : ("Cannot force fulfill. Insufficient stock for SKUs: " : String).length = 51 := by
    decide
  omega

/-! ## C3: a failed force-fulfill is atomic -/

/-- C3: when the order exists, is not currently `Fulfillable`, and the
pre-flight check finds short SKUs, the toggle returns `success = false`, the
insufficient-stock error naming exactly those SKUs, and the unmodified input
row set. -/
theorem toggle_force_fail_atomic (df : List Row) (orderNumber : String)
    (hfound : df.all (fun r => !(r.orderNumber == some orderNumber)) = false)
    (hstat : ¬ currentStatusOf df orderNumber = some "Fulfillable")
    (hlack : lackingSkus df (groupSumBySku (orderItemsOf df orderNumber)) ≠ []) :
    toggleOrderFulfillment df orderNumber =
      (false,
        some (insufficientStockMessage
          (lackingSkus df (groupSumBySku (orderItemsOf df orderNumber)))),
        df) := by
  rw [toggleOrderFulfillment]
  rw [if_neg (by simp [hfound]), if_neg (by simpa using hstat)]
  rw [if_neg (by simpa using hlack)]

/-- Witness: force-fulfilling order 1002 over `shortStockDf` (needs SKU-A:3,
final stock 2) fails atomically. -/
theorem toggle_force_fail_atomic_witness :
    toggleOrderFulfillment shortStockDf "1002" =
      (false,
        some (insufficientStockMessage
          (lackingSkus shortStockDf (groupSumBySku (orderItemsOf shortStockDf "1002")))),
        shortStockDf) :=
  toggle_force_fail_atomic shortStockDf "1002" (by decide) (by decide) (by decide)

/-! ## C2: per-order atomicity of the allocation -/

/-- C2: (i) every successful simulation step decides its order atomically —
either the availability check passed, the order is recorded `Fulfillable` and
the live stock is the result of deducting every line item of the order, or the
check failed, the order is recorded `Not Fulfillable` and the live stock is
untouched; (ii) in every completed run, rows sharing an order number share
their fulfillment status (no partially fulfilled order is ever shown). -/
theorem alloc_per_order_atomic :
    (∀ (lines : List CleanLine) (st : AllocState) (orderNumber : String) (st1 : AllocState),
      allocStep lines st orderNumber = .ok st1 →
        (canFulfillOrder st.liveStock (orderLines lines orderNumber) = true ∧
          st1.results = st.results ++ [(orderNumber, "Fulfillable")] ∧
          deductItems (orderLines lines orderNumber) st.liveStock = .ok st1.liveStock) ∨
        (canFulfillOrder st.liveStock (orderLines lines orderNumber) = false ∧
          st1.results = st.results ++ [(orderNumber, "Not Fulfillable")] ∧
          st1.liveStock = st.liveStock)) ∧
    (∀ (stock : List RawStockRow) (orders : List RawOrderRow) (history : List String),
      ∀ r1 ∈ outputRows (runAnalysis stock orders history),
        ∀ r2 ∈ outputRows (runAnalysis stock orders history),
          r1.orderNumber = r2.orderNumber → r1.fulfillmentStatus = r2.fulfillmentStatus) := by
  constructor
  · intro lines st orderNumber st1 h
    simp only [allocStep] at h
    split at h
    · split at h
      · cases h
        next hful hded =>
          exact Or.inl ⟨by assumption, rfl, hded⟩
      · cases h
    · cases h
      next hful => exact Or.inr ⟨Bool.of_not_eq_true hful, rfl, rfl⟩
  · intro stock orders history r1 h1 r2 h2 heq
    cases hrun : runAnalysis stock orders history with
    | error e => rw [hrun] at h1; simp [outputRows] at h1
    | ok out =>
      rw [hrun] at h1 h2
      simp only [outputRows] at h1 h2
      rw [runAnalysis] at hrun
      dsimp only at hrun
      split at hrun
      · cases hrun
      · cases hrun
        dsimp only at h1 h2
        obtain ⟨l1, -, rfl⟩ := List.mem_map.mp h1
        obtain ⟨l2, -, rfl⟩ := List.mem_map.mp h2
        simp only [buildRow, Option.some.injEq] at heq ⊢
        rw [heq]

/-- Witness for C2. -/
theorem alloc_per_order_atomic_witness :
    ((canFulfillOrder (AllocState.mk [("A", 1)] []).liveStock
        (orderLines [⟨"O1", "A", 1, none, none, none, none⟩] "O1") = true ∧
      (AllocState.mk [("A", 0)] [("O1", "Fulfillable")]).results =
        (AllocState.mk [("A", 1)] []).results ++ [("O1", "Fulfillable")] ∧
      deductItems (orderLines [⟨"O1", "A", 1, none, none, none, none⟩] "O1")
          (AllocState.mk [("A", 1)] []).liveStock =
        .ok (AllocState.mk [("A", 0)] [("O1", "Fulfillable")]).liveStock) ∨
     (canFulfillOrder (AllocState.mk [("A", 1)] []).liveStock
        (orderLines [⟨"O1", "A", 1, none, none, none, none⟩] "O1") = false ∧
      (AllocState.mk [("A", 0)] [("O1", "Fulfillable")]).results =
        (AllocState.mk [("A", 1)] []).results ++ [("O1", "Not Fulfillable")] ∧
      (AllocState.mk [("A", 0)] [("O1", "Fulfillable")]).liveStock =
        (AllocState.mk [("A", 1)] []).liveStock)) ∧
    ((outputRows (runAnalysis prioStock prioOrders [])).get ⟨3, by decide⟩).fulfillmentStatus =
      ((outputRows (runAnalysis prioStock prioOrders [])).get ⟨4, by decide⟩).fulfillmentStatus :=
  ⟨alloc_per_order_atomic.1 [⟨"O1", "A", 1, none, none, none, none⟩]
      (AllocState.mk [("A", 1)] []) "O1" (AllocState.mk [("A", 0)] [("O1", "Fulfillable")])
      (by decide),
   alloc_per_order_atomic.2 prioStock prioOrders [] _ (List.get_mem _ _ _) _ (List.get_mem _ _ _)
      (by decide)⟩
/-! ## C9: ADD_TAG idempotence -/

theorem splitCS_ne_nil : ∀ l : List Char, splitCS l ≠ [] := by
  intro l
  induction l using splitCS.induct with
  | case1 => simp [splitCS]
  | case2 c => simp [splitCS]
  | case3 c1 c2 rest h ih => obtain ⟨rfl, rfl⟩ := h; simp [splitCS]
  | case4 c1 c2 rest h ih =>
    rw [splitCS, if_neg h]
    cases hs : splitCS (c2 :: rest) with
    | nil => exact absurd hs ih
    | cons t ts => simp [consHead]

theorem consHead_append (c : Char) (l m : List (List Char)) (h : l ≠ []) :
    consHead c (l ++ m) = consHead c l ++ m := by
  cases l with
  | nil => exact absurd rfl h
  | cons t ts => simp [consHead]

theorem splitCS_append : ∀ a b : List Char,
    splitCS (a ++ ',' :: ' ' :: b) = splitCS a ++ splitCS b := by
  intro a
  induction a using splitCS.induct with
  | case1 => intro b; simp [splitCS]
  | case2 c =>
    intro b
    show splitCS (c :: ',' :: ' ' :: b) = _
    have hcond : ¬(c = ',' ∧ (',' : Char) = ' ') := fun hh => absurd hh.2 (by decide)
    rw [splitCS.eq_3, if_neg hcond, splitCS.eq_3, if_pos ⟨rfl, rfl⟩]
    simp [consHead, splitCS]
  | case3 c1 c2 rest h ih =>
    intro b
    obtain ⟨rfl, rfl⟩ := h
    show splitCS (',' :: ' ' :: (rest ++ ',' :: ' ' :: b)) = _
    rw [splitCS.eq_3, if_pos ⟨rfl, rfl⟩, ih, splitCS.eq_3, if_pos ⟨rfl, rfl⟩]
    simp
  | case4 c1 c2 rest h ih =>
    intro b
    show splitCS (c1 :: c2 :: (rest ++ ',' :: ' ' :: b)) = _
    rw [splitCS.eq_3, if_neg h, ← List.cons_append, ih, splitCS.eq_3, if_neg h]
    exact consHead_append c1 _ _ (splitCS_ne_nil _)

theorem pySplit_append (n v : String) :
    pySplitCommaSpace (n ++ ", " ++ v) = pySplitCommaSpace n ++ pySplitCommaSpace v := by
  unfold pySplitCommaSpace
  rw [show (n ++ ", " ++ v).data = n.data ++ ',' :: ' ' :: v.data by
        simp [String.data_append]]
  rw [splitCS_append, List.map_append]

theorem contains_pySplit_self (v : String) (hv : splitCS v.data = [v.data]) :
    (pySplitCommaSpace v).contains v = true := by
  unfold pySplitCommaSpace
  rw [hv]
  simp [List.contains]

theorem contains_pySplit_appendNote (v n : String) (hv : splitCS v.data = [v.data]) :
    (pySplitCommaSpace (appendNote v n)).contains v = true := by
  rw [appendNote]
  split
  · assumption
  · split
    · exact contains_pySplit_self v hv
    · rw [pySplit_append]
      unfold pySplitCommaSpace
      rw [hv]
      simp [List.contains]

theorem appendNote_idem (v n : String) (hv : splitCS v.data = [v.data]) :
    appendNote v (appendNote v n) = appendNote v n := by
  rw [show appendNote v (appendNote v n) =
        if (pySplitCommaSpace (appendNote v n)).contains v then appendNote v n
        else if appendNote v n == "" then v
        else appendNote v n ++ ", " ++ v from rfl]
  rw [if_pos (contains_pySplit_appendNote v n hv)]

theorem setCell_of_find?_none (r : List (String × CellVal)) (f : String) (v : CellVal)
    (h : r.find? (fun p => p.1 == f) = none) : setCell r f v = r := by
  rw [List.find?_eq_none] at h
  unfold setCell
  rw [List.map_congr_left (fun p hp => ?_), List.map_id]
  show (if p.1 == f then (p.1, v) else p) = id p
  rw [if_neg (by simpa using h p hp)]
  rfl

theorem getCell_setCell_of_find?_some (r : List (String × CellVal)) (f : String)
    (v : CellVal) (q : String × CellVal) (h : r.find? (fun p => p.1 == f) = some q) :
    getCell (setCell r f v) f = v := by
  induction r with
  | nil => simp at h
  | cons p rest ih =>
    by_cases hp : (p.1 == f) = true
    · have hset : setCell (p :: rest) f v = (p.1, v) :: setCell rest f v := by
        unfold setCell; rw [List.map_cons, if_pos hp]
      rw [hset]
      unfold getCell
      rw [List.find?_cons_of_pos _ (by simpa using hp)]
    · have hset : setCell (p :: rest) f v = p :: setCell rest f v := by
        unfold setCell; rw [List.map_cons, if_neg hp]
      rw [List.find?_cons_of_neg _ (by simpa using hp)] at h
      rw [hset]
      show getCell (p :: setCell rest f v) f = v
      unfold getCell
      rw [List.find?_cons_of_neg _ (by simpa using hp)]
      exact ih h

theorem setCell_setCell (r : List (String × CellVal)) (f : String) (v w : CellVal) :
    setCell (setCell r f v) f w = setCell r f w := by
  induction r with
  | nil => rfl
  | cons p rest ih =>
    unfold setCell at ih ⊢
    rw [List.map_cons, List.map_cons, List.map_cons]
    by_cases hb : (p.1 == f) = true
    · rw [if_pos hb, if_pos (show ((p.1, v).1 == f) = true from hb), if_pos hb, ih]
    · rw [if_neg hb, if_neg hb, ih]

theorem map_zip_map_self {α β γ : Type} (f : α → β) (g : α × β → γ) :
    ∀ l : List α, (l.zip (l.map f)).map g = l.map (fun x => g (x, f x)) := by
  intro l
  induction l with
  | nil => rfl
  | cons x xs ih => simp only [List.map_cons, List.zip_cons_cons, ih]

theorem executeAction_cols (t : RTable) (m : List Bool) (a : RAction) :
    (executeAction t m a).cols = t.cols := by
  simp only [executeAction]
  split_ifs <;> rfl

theorem foldl_executeAction_cols (m : List Bool) :
    ∀ (actions : List RAction) (t : RTable),
      (actions.foldl (fun acc a => executeAction acc m a) t).cols = t.cols := by
  intro actions
  induction actions with
  | nil => intro t; rfl
  | cons a rest ih => intro t; rw [List.foldl_cons, ih, executeAction_cols]

theorem applyRule_cols (t : RTable) (rule : Rule) : (applyRule t rule).cols = t.cols := by
  simp only [applyRule]
  split
  · exact foldl_executeAction_cols _ rule.actions t
  · rfl

theorem executeAction_addTag (t : RTable) (m : List Bool) (v : String) :
    executeAction t m ⟨"ADD_TAG", .str v⟩ =
      { t with rows := (t.rows.zip m).map (fun p =>
          if p.2 then
            setCell p.1 "Status_Note"
              (.str (appendNote v (cellNoteString (getCell p.1 "Status_Note"))))
          else p.1) } := by
  simp only [executeAction]
  rw [if_pos (by decide)]
  rfl

theorem addTag_row_stable (v : String) (hv : splitCS v.data = [v.data])
    (row : List (String × CellVal)) :
    setCell
        (setCell row "Status_Note"
          (.str (appendNote v (cellNoteString (getCell row "Status_Note")))))
        "Status_Note"
        (.str (appendNote v (cellNoteString (getCell
          (setCell row "Status_Note"
            (.str (appendNote v (cellNoteString (getCell row "Status_Note")))))
          "Status_Note")))) =
      setCell row "Status_Note"
        (.str (appendNote v (cellNoteString (getCell row "Status_Note")))) := by
  cases hfind : row.find? (fun p => p.1 == "Status_Note") with
  | none =>
    rw [setCell_of_find?_none row _ _ hfind, setCell_of_find?_none row _ _ hfind]
  | some q =>
    rw [getCell_setCell_of_find?_some row _ _ q hfind]
    rw [show cellNoteString (.str (appendNote v (cellNoteString (getCell row "Status_Note")))) =
          appendNote v (cellNoteString (getCell row "Status_Note")) from rfl]
    rw [appendNote_idem v _ hv, setCell_setCell]

theorem applyRule_addTag_fixed (cols : List String)
    (rows : List (List (String × CellVal))) (mt : String) (conds : List Condition)
    (v : String)
    (hstable : ∀ row ∈ rows,
      matchRow cols ⟨mt, conds, [⟨"ADD_TAG", .str v⟩]⟩ row = true →
        setCell row "Status_Note"
            (.str (appendNote v (cellNoteString (getCell row "Status_Note")))) = row) :
    applyRule ⟨cols, rows⟩ ⟨mt, conds, [⟨"ADD_TAG", .str v⟩]⟩ = ⟨cols, rows⟩ := by
  by_cases hany :
      ((getMatchingRows ⟨cols, rows⟩ ⟨mt, conds, [⟨"ADD_TAG", .str v⟩]⟩).any id) = true
  · simp only [applyRule]
    rw [if_pos hany, List.foldl_cons, List.foldl_nil, executeAction_addTag]
    rw [show getMatchingRows ⟨cols, rows⟩ ⟨mt, conds, [⟨"ADD_TAG", .str v⟩]⟩ =
          rows.map (matchRow cols ⟨mt, conds, [⟨"ADD_TAG", .str v⟩]⟩) from rfl]
    rw [map_zip_map_self]
    refine congrArg (RTable.mk cols) ?_
    refine (List.map_congr_left fun row hrow => ?_).trans (List.map_id rows)
    show (if matchRow cols ⟨mt, conds, [⟨"ADD_TAG", .str v⟩]⟩ row then
        setCell row "Status_Note"
          (.str (appendNote v (cellNoteString (getCell row "Status_Note"))))
      else row) = id row
    by_cases hm : matchRow cols ⟨mt, conds, [⟨"ADD_TAG", .str v⟩]⟩ row = true
    · rw [if_pos hm]
      exact hstable row hrow hm
    · rw [if_neg hm]
      rfl
  · simp only [applyRule]
    rw [if_neg hany]

theorem applyRule_addTag_stable (t : RTable) (mt : String) (conds : List Condition)
    (v : String) (hv : splitCS v.data = [v.data]) :
    applyRule (applyRule t ⟨mt, conds, [⟨"ADD_TAG", .str v⟩]⟩)
        ⟨mt, conds, [⟨"ADD_TAG", .str v⟩]⟩ =
      applyRule t ⟨mt, conds, [⟨"ADD_TAG", .str v⟩]⟩ := by
  by_cases h1 : ((getMatchingRows t ⟨mt, conds, [⟨"ADD_TAG", .str v⟩]⟩).any id) = true
  · have ht2 : applyRule t ⟨mt, conds, [⟨"ADD_TAG", .str v⟩]⟩ =
        ⟨t.cols, t.rows.map (fun row =>
            if matchRow t.cols ⟨mt, conds, [⟨"ADD_TAG", .str v⟩]⟩ row then
              setCell row "Status_Note"
                (.str (appendNote v (cellNoteString (getCell row "Status_Note"))))
            else row)⟩ := by
      simp only [applyRule]
      rw [if_pos h1, List.foldl_cons, List.foldl_nil, executeAction_addTag]
      rw [show getMatchingRows t ⟨mt, conds, [⟨"ADD_TAG", .str v⟩]⟩ =
            t.rows.map (matchRow t.cols ⟨mt, conds, [⟨"ADD_TAG", .str v⟩]⟩) from rfl]
      rw [map_zip_map_self]
    rw [ht2]
    refine applyRule_addTag_fixed t.cols _ mt conds v (fun row2 hrow2 hm2 => ?_)
    obtain ⟨row, -, rfl⟩ := List.mem_map.mp hrow2
    by_cases hm : matchRow t.cols ⟨mt, conds, [⟨"ADD_TAG", .str v⟩]⟩ row = true
    · rw [if_pos hm] at hm2 ⊢
      exact addTag_row_stable v hv row
    · rw [if_neg hm] at hm2
      exact absurd hm2 hm
  · simp only [applyRule]
    rw [if_neg h1, if_neg h1]

theorem addColumn_noop_of_mem (t : RTable) (f : String) (d : CellVal)
    (h : f ∈ t.cols) : addColumn t f d = t := by
  rw [addColumn, if_pos]
  simpa [List.contains, List.elem_iff] using h

theorem mem_cols_addColumn (t : RTable) (f : String) (d : CellVal) :
    f ∈ (addColumn t f d).cols := by
  rw [addColumn]
  split
  · next h => simpa [List.contains, List.elem_iff] using h
  · simp

theorem prepare_addTag (t : RTable) (mt : String) (conds : List Condition) (v : String) :
    prepareForActions [⟨mt, conds, [⟨"ADD_TAG", .str v⟩]⟩] t =
      addColumn t "Status_Note" (.str "") := by
  have h1 : rulesNeedColumn [⟨mt, conds, [⟨"ADD_TAG", .str v⟩]⟩] "Priority" = false := rfl
  have h2 : rulesNeedColumn [⟨mt, conds, [⟨"ADD_TAG", .str v⟩]⟩] "_is_excluded" = false := rfl
  have h3 : rulesNeedColumn [⟨mt, conds, [⟨"ADD_TAG", .str v⟩]⟩] "Status_Note" = true := rfl
  simp only [prepareForActions]
  rw [if_pos h3, if_neg (by simp [h2]), if_neg (by simp [h1])]

/-- C9 (amended): the ADD_TAG action is idempotent for every tag value that
does not contain the separator `", "` — applying the same single-action
ADD_TAG rule twice through the engine produces the same table as applying it
once. (For a value containing `", "`, the dedupe against the comma-space
split of the note cannot see the previously appended value, and the tag is
appended again.) -/
theorem applyRules_addTag_idempotent (t : RTable) (mt : String) (conds : List Condition)
    (v : String) (hv : splitCS v.data = [v.data]) :
    applyRules [⟨mt, conds, [⟨"ADD_TAG", .str v⟩]⟩]
        (applyRules [⟨mt, conds, [⟨"ADD_TAG", .str v⟩]⟩] t) =
      applyRules [⟨mt, conds, [⟨"ADD_TAG", .str v⟩]⟩] t := by
  have happly : ∀ x : RTable, applyRules [⟨mt, conds, [⟨"ADD_TAG", .str v⟩]⟩] x =
      applyRule (prepareForActions [⟨mt, conds, [⟨"ADD_TAG", .str v⟩]⟩] x)
        ⟨mt, conds, [⟨"ADD_TAG", .str v⟩]⟩ := by
    intro x
    have hne : ¬([⟨mt, conds, [⟨"ADD_TAG", .str v⟩]⟩] : List Rule).isEmpty = true := by
      simp [List.isEmpty]
    rw [applyRules, if_neg hne, List.foldl_cons, List.foldl_nil]
  rw [happly t, happly _]
  rw [prepare_addTag]
  rw [addColumn_noop_of_mem]
  · exact applyRule_addTag_stable _ mt conds v hv
  · rw [applyRule_cols, prepare_addTag]
    exact mem_cols_addColumn t _ _

/-- Witness: the idempotence theorem applied to `sampleTable` with tag "t". -/
theorem applyRules_addTag_idempotent_witness :
    applyRules [⟨"ALL", [⟨"Tags", "equals", .str "x"⟩], [⟨"ADD_TAG", .str "t"⟩]⟩]
        (applyRules [⟨"ALL", [⟨"Tags", "equals", .str "x"⟩], [⟨"ADD_TAG", .str "t"⟩]⟩]
          sampleTable) =
      applyRules [⟨"ALL", [⟨"Tags", "equals", .str "x"⟩], [⟨"ADD_TAG", .str "t"⟩]⟩]
        sampleTable :=
  applyRules_addTag_idempotent sampleTable "ALL" [⟨"Tags", "equals", .str "x"⟩] "t"
    (by decide)

/-- C9 counterexample: the same ADD_TAG rule with tag value `"a, b"`
(containing the separator) applied twice duplicates the tag, so the action is
not idempotent for every ADD_TAG rule. -/
theorem addTag_not_idempotent_for_separator_value :
    applyRules [sampleAddTagRule "a, b"] (applyRules [sampleAddTagRule "a, b"] sampleTable) ≠
        applyRules [sampleAddTagRule "a, b"] sampleTable ∧
      (applyRules [sampleAddTagRule "a, b"] sampleTable).rows.map
          (fun r => getCell r "Status_Note") = [.str "a, b"] ∧
      (applyRules [sampleAddTagRule "a, b"]
          (applyRules [sampleAddTagRule "a, b"] sampleTable)).rows.map
          (fun r => getCell r "Status_Note") = [.str "a, b, a, b"] :=
  ⟨by decide, by decide, by decide⟩

/-! ## C8: unusable conditions -/

theorem conditionResults_filter_usable (cols : List String) (conds : List Condition)
    (row : List (String × CellVal)) :
    conditionResults cols (conds.filter (usableCondition cols)) row =
      conditionResults cols conds row := by
  induction conds with
  | nil => rfl
  | cons c rest ih =>
    simp only [conditionResults] at ih
    by_cases hc : usableCondition cols c = true
    · simp only [conditionResults, List.filter_cons_of_pos hc, List.filterMap_cons, hc,
        if_true, ih]
    · simp [conditionResults, List.filter_cons_of_neg hc, List.filterMap_cons, hc, ih]

theorem matchRow_filter_usable (cols : List String) (rule : Rule)
    (row : List (String × CellVal)) :
    matchRow cols ⟨rule.matchType, rule.conditions.filter (usableCondition cols),
        rule.actions⟩ row =
      matchRow cols rule row := by
  rw [matchRow, matchRow]
  try dsimp only
  rw [conditionResults_filter_usable]
  by_cases h1 : rule.conditions.isEmpty = true
  · have h0 : rule.conditions = [] := by
      cases hc : rule.conditions
      · rfl
      · rw [hc] at h1; simp [List.isEmpty] at h1
    rw [h0]
    rfl
  · by_cases h2 : (rule.conditions.filter (usableCondition cols)).isEmpty = true
    · have h2e : rule.conditions.filter (usableCondition cols) = [] := by
        cases hc : rule.conditions.filter (usableCondition cols)
        · rfl
        · rw [hc] at h2; simp [List.isEmpty] at h2
      have h3 : (conditionResults cols rule.conditions row).isEmpty = true := by
        rw [← conditionResults_filter_usable, h2e]
        rfl
      rw [if_pos h2, if_neg h1, if_pos h3]
    · rw [if_neg h2, if_neg h1]

theorem any_id_map_false {α : Type} (l : List α) :
    ((l.map (fun _ => false)).any id) = false := by
  induction l with
  | nil => rfl
  | cons x xs ih => exact ih

/-- C8 (amended): an unusable condition (unrecognized operator, absent or
missing field) is dropped from the condition list — the remaining conditions
alone decide the match, so under ALL-match a dropped condition behaves as
vacuously true, not as never-matching — and a rule left with zero usable
conditions matches no rows, so applying it leaves the table unchanged. -/
theorem unusable_conditions_dropped :
    (∀ (t : RTable) (rule : Rule),
      getMatchingRows t
          ⟨rule.matchType, rule.conditions.filter (usableCondition t.cols), rule.actions⟩ =
        getMatchingRows t rule) ∧
    (∀ (t : RTable) (rule : Rule),
      rule.conditions.filter (usableCondition t.cols) = [] →
        getMatchingRows t rule = t.rows.map (fun _ => false) ∧ applyRule t rule = t) := by
  constructor
  · intro t rule
    exact List.map_congr_left (fun row _ => matchRow_filter_usable t.cols rule row)
  · intro t rule hfil
    have hmask : getMatchingRows t rule = t.rows.map (fun _ => false) := by
      refine List.map_congr_left (fun row _ => ?_)
      rw [← matchRow_filter_usable t.cols rule row, hfil]
      rw [matchRow]
      simp
    refine ⟨hmask, ?_⟩
    rw [applyRule]
    try dsimp only
    rw [if_neg (by rw [hmask, any_id_map_false]; exact Bool.false_ne_true)]

/-- Witness: dropping applied to `mixedConditionRule`, and the zero-usable
rule `unusableConditionsRule` matching nothing and changing nothing. -/
theorem unusable_conditions_dropped_witness :
    (getMatchingRows sampleTable
        ⟨mixedConditionRule.matchType,
          mixedConditionRule.conditions.filter (usableCondition sampleTable.cols),
          mixedConditionRule.actions⟩ =
      getMatchingRows sampleTable mixedConditionRule) ∧
    (getMatchingRows sampleTable unusableConditionsRule =
        sampleTable.rows.map (fun _ => false) ∧
      applyRule sampleTable unusableConditionsRule = sampleTable) :=
  ⟨unusable_conditions_dropped.1 sampleTable mixedConditionRule,
   unusable_conditions_dropped.2 sampleTable unusableConditionsRule (by decide)⟩

/-- C8 counterexample: under ALL-match, a rule holding one unusable condition
and one usable condition that matches the row does match the row (and firing
it modifies the table), whereas treating the unusable condition as "never
matching" would make the rule match nothing. -/
theorem unusable_condition_not_never_matching :
    getMatchingRows sampleTable mixedConditionRule = [true] ∧
      getMatchingRowsNeverMatch sampleTable mixedConditionRule = [false] ∧
      applyRule sampleTable mixedConditionRule ≠ sampleTable :=
  ⟨by decide, by decide, by decide⟩

/-! ## C10: the frame of a successful toggle -/

theorem sameRowFrame_refl (r : Row) : sameRowFrame r r :=
  ⟨rfl, rfl, rfl, rfl, rfl, rfl, rfl, rfl, rfl, rfl, rfl, rfl, rfl, rfl⟩

theorem sameRowFrame_trans {a b c : Row} (h1 : sameRowFrame a b) (h2 : sameRowFrame b c) :
    sameRowFrame a c := by
  obtain ⟨e1, e2, e3, e4, e5, e6, e7, e8, e9, e10, e11, e12, e13, e14⟩ := h1
  obtain ⟨f1, f2, f3, f4, f5, f6, f7, f8, f9, f10, f11, f12, f13, f14⟩ := h2
  exact ⟨e1.trans f1, e2.trans f2, e3.trans f3, e4.trans f4, e5.trans f5, e6.trans f6,
    e7.trans f7, e8.trans f8, e9.trans f9, e10.trans f10, e11.trans f11, e12.trans f12,
    e13.trans f13, e14.trans f14⟩

theorem forall2_frame_trans : ∀ {a b c : List Row},
    List.Forall₂ sameRowFrame a b → List.Forall₂ sameRowFrame b c →
      List.Forall₂ sameRowFrame a c := by
  intro a b c h1 h2
  induction h1 generalizing c with
  | nil => cases h2; exact List.Forall₂.nil
  | cons hxy hrest ih =>
    cases h2 with
    | cons hyz hrest2 => exact List.Forall₂.cons (sameRowFrame_trans hxy hyz) (ih hrest2)

theorem frame_map_of_pointwise (f : Row → Row) (hf : ∀ x, sameRowFrame x (f x))
    (l : List Row) : List.Forall₂ sameRowFrame l (l.map f) :=
  List.forall₂_map_right_iff.mpr (List.forall₂_same.mpr (fun x _ => hf x))

theorem addToSkuStock_frame (df : List Row) (sku : String) (q : Int) :
    List.Forall₂ sameRowFrame df (addToSkuStock df sku q) := by
  refine frame_map_of_pointwise _ (fun r => ?_) df
  by_cases h : (r.sku == sku) = true
  · rw [if_pos h]; exact ⟨rfl, rfl, rfl, rfl, rfl, rfl, rfl, rfl, rfl, rfl, rfl, rfl, rfl, rfl⟩
  · rw [if_neg h]; exact sameRowFrame_refl r

theorem subFromSkuStock_frame (df : List Row) (sku : String) (q : Int) :
    List.Forall₂ sameRowFrame df (subFromSkuStock df sku q) := by
  refine frame_map_of_pointwise _ (fun r => ?_) df
  by_cases h : (r.sku == sku) = true
  · rw [if_pos h]; exact ⟨rfl, rfl, rfl, rfl, rfl, rfl, rfl, rfl, rfl, rfl, rfl, rfl, rfl, rfl⟩
  · rw [if_neg h]; exact sameRowFrame_refl r

theorem setOrderStatus_frame (df : List Row) (orderNumber status : String) :
    List.Forall₂ sameRowFrame df (setOrderStatus df orderNumber status) := by
  refine frame_map_of_pointwise _ (fun r => ?_) df
  by_cases h : (r.orderNumber == some orderNumber) = true
  · rw [if_pos h]; exact ⟨rfl, rfl, rfl, rfl, rfl, rfl, rfl, rfl, rfl, rfl, rfl, rfl, rfl, rfl⟩
  · rw [if_neg h]; exact sameRowFrame_refl r

theorem addFold_frame (pairs : List (String × Int)) :
    ∀ df : List Row,
      List.Forall₂ sameRowFrame df (pairs.foldl (fun d p => addToSkuStock d p.1 p.2) df) := by
  induction pairs with
  | nil => intro df; exact List.forall₂_same.mpr (fun x _ => sameRowFrame_refl x)
  | cons p rest ih =>
    intro df
    rw [List.foldl_cons]
    exact forall2_frame_trans (addToSkuStock_frame df p.1 p.2) (ih _)

theorem forall2_frame_sku_mem : ∀ {df d : List Row},
    List.Forall₂ sameRowFrame df d → ∀ r ∈ df, ∃ r2 ∈ d, r2.sku = r.sku := by
  intro df d h
  induction h with
  | nil => intro r hr; cases hr
  | @cons a b l1 l2 hab hrest ih =>
    intro r hr
    rcases List.mem_cons.mp hr with rfl | hr2
    · exact ⟨b, List.mem_cons_self b l2, hab.2.2.1.symm⟩
    · obtain ⟨r2, hr2m, hr2e⟩ := ih r hr2
      exact ⟨r2, List.mem_cons_of_mem b hr2m, hr2e⟩

theorem mem_dedupByKeyAux_sub {α κ : Type} [BEq κ] (key : α → κ) :
    ∀ (l : List α) (seen : List κ) (x : α), x ∈ dedupByKeyAux key seen l → x ∈ l := by
  intro l
  induction l with
  | nil => intro seen x hx; cases hx
  | cons hd tl ih =>
    intro seen x hx
    rw [dedupByKeyAux] at hx
    split at hx
    · exact List.mem_cons_of_mem _ (ih _ _ hx)
    · rcases List.mem_cons.mp hx with rfl | hx2
      · exact List.mem_cons_self _ _
      · exact List.mem_cons_of_mem _ (ih _ _ hx2)

theorem groupSumPairs_key_mem (pairs : List (String × Int)) :
    ∀ p ∈ groupSumPairs pairs, p.1 ∈ pairs.map (fun q => q.1) := by
  intro p hp
  rw [groupSumPairs] at hp
  obtain ⟨k, hk, rfl⟩ := List.mem_map.mp hp
  have hk2 : k ∈ dedupByKey id (pairs.map (fun q => q.1)) :=
    (List.perm_insertionSort strLe _).mem_iff.mp hk
  exact mem_dedupByKeyAux_sub id _ [] k hk2

theorem groupSumBySku_key_mem (items : List Row) :
    ∀ p ∈ groupSumBySku items, ∃ r ∈ items, r.sku = p.1 := by
  intro p hp
  rw [groupSumBySku] at hp
  have hk := groupSumPairs_key_mem _ p hp
  rw [List.map_map] at hk
  obtain ⟨r, hr, hre⟩ := List.mem_map.mp hk
  exact ⟨r, hr, hre⟩

theorem all_ne_sku_false {d : List Row} {r2 : Row} {k : String}
    (hm : r2 ∈ d) (he : r2.sku = k) : (d.all (fun r => !(r.sku == k))) = false := by
  cases hall : d.all (fun r => !(r.sku == k)) with
  | false => rfl
  | true =>
    exfalso
    have := List.all_eq_true.mp hall r2 hm
    rw [he] at this
    simp at this

theorem forceDeduct_frame :
    ∀ (pairs : List (String × Int)) (df0 d : List Row),
      List.Forall₂ sameRowFrame df0 d →
      (∀ p ∈ pairs, ∃ r ∈ df0, r.sku = p.1) →
      List.Forall₂ sameRowFrame df0
        (pairs.foldl (fun d p =>
          subFromSkuStock (if d.all (fun r => !(r.sku == p.1)) then d ++ [placeholderRow p.1]
            else d) p.1 p.2) d) := by
  intro pairs
  induction pairs with
  | nil => intro df0 d h _; exact h
  | cons p rest ih =>
    intro df0 d h hkeys
    rw [List.foldl_cons]
    obtain ⟨r, hrm, hre⟩ := hkeys p (List.mem_cons_self p rest)
    obtain ⟨r2, hr2m, hr2e⟩ := forall2_frame_sku_mem h r hrm
    have hall : (d.all (fun r => !(r.sku == p.1))) = false :=
      all_ne_sku_false hr2m (hr2e.trans hre)
    rw [hall]
    rw [show (if (false : Bool) then d ++ [placeholderRow p.1] else d) = d from rfl]
    refine ih df0 _ (forall2_frame_trans h (subFromSkuStock_frame d p.1 p.2))
      (fun q hq => hkeys q (List.mem_cons_of_mem p hq))

theorem toggle_success_frame_eq (df : List Row) (orderNumber : String)
    (e : Option String) (d : List Row)
    (h : toggleOrderFulfillment df orderNumber = (true, e, d)) :
    List.Forall₂ sameRowFrame df d := by
  rw [toggleOrderFulfillment] at h
  dsimp only at h
  split at h
  · simp at h
  · split at h
    · cases h
      exact forall2_frame_trans (addFold_frame _ df) (setOrderStatus_frame _ _ _)
    · split at h
      · cases h
        refine forall2_frame_trans ?_ (setOrderStatus_frame _ _ _)
        rw [forceDeduct]
        refine forceDeduct_frame _ df df
          (List.forall₂_same.mpr (fun x _ => sameRowFrame_refl x)) (fun p hp => ?_)
        obtain ⟨r, hr, hre⟩ := groupSumBySku_key_mem _ p hp
        exact ⟨r, List.mem_of_mem_filter hr, hre⟩
      · simp at h

/-- C10: a successful toggle of an order whose every SKU already occurs in
the row set adds or removes no row and changes only the `Final_Stock` and
`Order_Fulfillment_Status` fields: every other field of every row is
unchanged (`sameRowFrame`, which also forces equal length). -/
theorem toggle_success_frame (df : List Row) (orderNumber : String)
    (_hsku : ∀ r ∈ df, r.orderNumber = some orderNumber → ∃ r2 ∈ df, r2.sku = r.sku)
    (h : (toggleOrderFulfillment df orderNumber).1 = true) :
    List.Forall₂ sameRowFrame df ((toggleOrderFulfillment df orderNumber).2.2) := by
  rcases htog : toggleOrderFulfillment df orderNumber with ⟨b, e, d⟩
  rw [htog] at h
  cases h
  exact toggle_success_frame_eq df orderNumber e d htog

/-- Witness: un-fulfilling order 1001 over `sampleAnalysisDf` keeps the frame
of every row. -/
theorem toggle_success_frame_witness :
    List.Forall₂ sameRowFrame sampleAnalysisDf
      ((toggleOrderFulfillment sampleAnalysisDf "1001").2.2) :=
  toggle_success_frame sampleAnalysisDf "1001"
    (fun r hr _ => ⟨r, hr, rfl⟩) (by decide)

/-! ## C4: toggle round trip -/

theorem all_neg_eq_false {α : Type} {l : List α} {x : α} (hm : x ∈ l) {p : α → Bool}
    (hp : p x = true) : (l.all (fun y => !(p y))) = false := by
  cases h : l.all (fun y => !(p y)) with
  | false => rfl
  | true =>
    exfalso
    have := List.all_eq_true.mp h x hm
    rw [hp] at this
    simp at this

theorem exists_all_eq_false {α : Type} {l : List α} {p : α → Bool}
    (h : (l.all (fun y => !(p y))) = false) : ∃ x ∈ l, p x = true := by
  induction l with
  | nil => simp [List.all_nil] at h
  | cons a rest ih =>
    by_cases ha : p a = true
    · exact ⟨a, List.mem_cons_self a rest, ha⟩
    · rw [List.all_cons] at h
      have ha2 : (!(p a)) = true := by
        cases hpa : p a
        · rfl
        · exact absurd hpa ha
      rw [ha2, Bool.true_and] at h
      obtain ⟨x, hx, hpx⟩ := ih h
      exact ⟨x, List.mem_cons_of_mem a hx, hpx⟩

theorem orderItemsOf_map (d : List Row) (f : Row → Row) (orderNumber : String)
    (hf : ∀ r, (f r).orderNumber = r.orderNumber) :
    orderItemsOf (d.map f) orderNumber = (orderItemsOf d orderNumber).map f := by
  unfold orderItemsOf
  rw [List.filter_map]
  congr 1
  refine List.filter_congr (fun r _ => ?_)
  simp [Function.comp, hf r]

theorem groupSumBySku_map (items : List Row) (f : Row → Row)
    (hs : ∀ r, (f r).sku = r.sku) (hq : ∀ r, (f r).quantity = r.quantity) :
    groupSumBySku (items.map f) = groupSumBySku items := by
  unfold groupSumBySku
  rw [List.map_map]
  congr 1
  refine List.map_congr_left (fun r _ => ?_)
  simp [Function.comp, hs r, hq r]

theorem itemsNeeded_addToSkuStock (d : List Row) (k : String) (q : Int)
    (orderNumber : String) :
    groupSumBySku (orderItemsOf (addToSkuStock d k q) orderNumber) =
      groupSumBySku (orderItemsOf d orderNumber) := by
  rw [addToSkuStock, orderItemsOf_map, groupSumBySku_map]
  · intro r; by_cases h : (r.sku == k) = true <;> simp [h]
  · intro r; by_cases h : (r.sku == k) = true <;> simp [h]
  · intro r; by_cases h : (r.sku == k) = true <;> simp [h]

theorem itemsNeeded_addFold :
    ∀ (pairs : List (String × Int)) (d : List Row) (orderNumber : String),
      groupSumBySku (orderItemsOf
          (pairs.foldl (fun d p => addToSkuStock d p.1 p.2) d) orderNumber) =
        groupSumBySku (orderItemsOf d orderNumber) := by
  intro pairs
  induction pairs with
  | nil => intro d orderNumber; rfl
  | cons p rest ih =>
    intro d orderNumber
    rw [List.foldl_cons, ih, itemsNeeded_addToSkuStock]

theorem itemsNeeded_setOrderStatus (d : List Row) (o2 s orderNumber : String) :
    groupSumBySku (orderItemsOf (setOrderStatus d o2 s) orderNumber) =
      groupSumBySku (orderItemsOf d orderNumber) := by
  rw [setOrderStatus, orderItemsOf_map, groupSumBySku_map]
  · intro r; by_cases h : (r.orderNumber == some o2) = true <;> simp [h]
  · intro r; by_cases h : (r.orderNumber == some o2) = true <;> simp [h]
  · intro r; by_cases h : (r.orderNumber == some o2) = true <;> simp [h]

theorem exists_orderNumber_map (d : List Row) (f : Row → Row) (orderNumber : String)
    (hf : ∀ r, (f r).orderNumber = r.orderNumber)
    (h : ∃ r ∈ d, (r.orderNumber == some orderNumber) = true) :
    ∃ r ∈ d.map f, (r.orderNumber == some orderNumber) = true := by
  obtain ⟨r, hm, hp⟩ := h
  exact ⟨f r, List.mem_map_of_mem f hm, by rw [hf r]; exact hp⟩

theorem exists_orderNumber_addFold :
    ∀ (pairs : List (String × Int)) (d : List Row) (orderNumber : String),
      (∃ r ∈ d, (r.orderNumber == some orderNumber) = true) →
      ∃ r ∈ pairs.foldl (fun d p => addToSkuStock d p.1 p.2) d,
        (r.orderNumber == some orderNumber) = true := by
  intro pairs
  induction pairs with
  | nil => intro d orderNumber h; exact h
  | cons p rest ih =>
    intro d orderNumber h
    rw [List.foldl_cons]
    refine ih _ orderNumber ?_
    rw [addToSkuStock]
    refine exists_orderNumber_map d _ orderNumber (fun r => ?_) h
    by_cases hc : (r.sku == p.1) = true <;> simp [hc]

theorem currentStatusOf_setOrderStatus (d : List Row) (orderNumber s : String)
    (hex : ∃ r ∈ d, (r.orderNumber == some orderNumber) = true) :
    currentStatusOf (setOrderStatus d orderNumber s) orderNumber = some s := by
  induction d with
  | nil => obtain ⟨r, hm, -⟩ := hex; cases hm
  | cons r rest ih =>
    rw [setOrderStatus, List.map_cons]
    by_cases hr : (r.orderNumber == some orderNumber) = true
    · rw [if_pos hr]
      unfold currentStatusOf
      rw [List.find?_cons_of_pos _ (by simpa using hr)]
      rfl
    · rw [if_neg hr]
      unfold currentStatusOf
      rw [List.find?_cons_of_neg _ (by simpa using hr)]
      have hex2 : ∃ x ∈ rest, (x.orderNumber == some orderNumber) = true := by
        obtain ⟨x, hm, hp⟩ := hex
        rcases List.mem_cons.mp hm with rfl | hm2
        · exact absurd hp hr
        · exact ⟨x, hm2, hp⟩
      have := ih hex2
      rw [setOrderStatus] at this
      exact this

theorem exists_sku_addFold :
    ∀ (pairs : List (String × Int)) (d : List Row) (k : String),
      (∃ r ∈ d, r.sku = k) →
      ∃ r ∈ pairs.foldl (fun d p => addToSkuStock d p.1 p.2) d, r.sku = k := by
  intro pairs
  induction pairs with
  | nil => intro d k h; exact h
  | cons p rest ih =>
    intro d k h
    rw [List.foldl_cons]
    refine ih _ k ?_
    obtain ⟨r, hm, hp⟩ := h
    rw [addToSkuStock]
    refine ⟨_, List.mem_map_of_mem _ hm, ?_⟩
    by_cases hc : (r.sku == p.1) = true
    · rw [if_pos hc]; exact hp
    · rw [if_neg hc]; exact hp

theorem exists_sku_setOrderStatus (d : List Row) (orderNumber s k : String)
    (h : ∃ r ∈ d, r.sku = k) : ∃ r ∈ setOrderStatus d orderNumber s, r.sku = k := by
  obtain ⟨r, hm, hp⟩ := h
  rw [setOrderStatus]
  refine ⟨_, List.mem_map_of_mem _ hm, ?_⟩
  by_cases hc : (r.orderNumber == some orderNumber) = true
  · rw [if_pos hc]; exact hp
  · rw [if_neg hc]; exact hp

theorem forceDeduct_eq_subFold :
    ∀ (pairs : List (String × Int)) (d : List Row),
      (∀ p ∈ pairs, ∃ r ∈ d, r.sku = p.1) →
      forceDeduct pairs d = pairs.foldl (fun d p => subFromSkuStock d p.1 p.2) d := by
  intro pairs
  induction pairs with
  | nil => intro d _; rfl
  | cons p rest ih =>
    intro d hkeys
    obtain ⟨r, hm, hp⟩ := hkeys p (List.mem_cons_self p rest)
    have hall : (d.all (fun r => !(r.sku == p.1))) = false :=
      all_neg_eq_false hm (by simp [hp])
    have hstep : forceDeduct (p :: rest) d = forceDeduct rest (subFromSkuStock d p.1 p.2) := by
      rw [forceDeduct, forceDeduct, List.foldl_cons]
      congr 1
      dsimp only
      rw [hall]
      simp
    rw [hstep, List.foldl_cons]
    refine ih _ (fun q hq => ?_)
    obtain ⟨r2, hm2, hp2⟩ := hkeys q (List.mem_cons_of_mem p hq)
    rw [subFromSkuStock]
    refine ⟨_, List.mem_map_of_mem _ hm2, ?_⟩
    by_cases hc : (r2.sku == p.1) = true
    · rw [if_pos hc]; exact hp2
    · rw [if_neg hc]; exact hp2

theorem sub_setOrderStatus_comm (d : List Row) (orderNumber s k : String) (q : Int) :
    subFromSkuStock (setOrderStatus d orderNumber s) k q =
      setOrderStatus (subFromSkuStock d k q) orderNumber s := by
  rw [subFromSkuStock, setOrderStatus, setOrderStatus, subFromSkuStock,
    List.map_map, List.map_map]
  refine List.map_congr_left (fun r _ => ?_)
  by_cases h1 : (r.orderNumber == some orderNumber) = true <;>
    by_cases h2 : (r.sku == k) = true <;>
      simp [Function.comp, h1, h2]

theorem subFold_setOrderStatus_comm :
    ∀ (pairs : List (String × Int)) (d : List Row) (orderNumber s : String),
      pairs.foldl (fun d p => subFromSkuStock d p.1 p.2) (setOrderStatus d orderNumber s) =
        setOrderStatus (pairs.foldl (fun d p => subFromSkuStock d p.1 p.2) d) orderNumber s := by
  intro pairs
  induction pairs with
  | nil => intro d orderNumber s; rfl
  | cons p rest ih =>
    intro d orderNumber s
    rw [List.foldl_cons, List.foldl_cons, sub_setOrderStatus_comm, ih]

theorem sub_add_comm (d : List Row) (k1 k2 : String) (q1 q2 : Int) :
    subFromSkuStock (addToSkuStock d k2 q2) k1 q1 =
      addToSkuStock (subFromSkuStock d k1 q1) k2 q2 := by
  rw [subFromSkuStock, addToSkuStock, addToSkuStock, subFromSkuStock,
    List.map_map, List.map_map]
  refine List.map_congr_left (fun r _ => ?_)
  by_cases h1 : (r.sku == k1) = true <;> by_cases h2 : (r.sku == k2) = true <;>
    simp [Function.comp, h1, h2, Option.map_map]
  congr 1
  funext v
  simp only [Function.comp_apply]
  omega

theorem sub_add_cancel_rows (d : List Row) (k : String) (q : Int) :
    subFromSkuStock (addToSkuStock d k q) k q = d := by
  rw [subFromSkuStock, addToSkuStock, List.map_map]
  refine (List.map_congr_left (fun r _ => ?_)).trans (List.map_id d)
  have hfs : Option.map (fun v => v - q) (Option.map (fun v => v + q) r.finalStock) =
      r.finalStock := by
    rw [Option.map_map]
    rw [show ((fun v => v - q) ∘ fun v : Int => v + q) = id from by
      funext v; simp [Function.comp_apply]]
    rw [Option.map_id]
    rfl
  by_cases h : (r.sku == k) = true
  · simp only [Function.comp_apply, if_pos h]
    rw [hfs]
    rfl
  · dsimp only [Function.comp]
    rw [if_neg h, if_neg h]
    rfl

theorem sub_addFold_comm :
    ∀ (pairs : List (String × Int)) (d : List Row) (k : String) (q : Int),
      subFromSkuStock (pairs.foldl (fun d p => addToSkuStock d p.1 p.2) d) k q =
        pairs.foldl (fun d p => addToSkuStock d p.1 p.2) (subFromSkuStock d k q) := by
  intro pairs
  induction pairs with
  | nil => intro d k q; rfl
  | cons p rest ih =>
    intro d k q
    rw [List.foldl_cons, List.foldl_cons, ih, sub_add_comm]

theorem subFold_addFold_cancel :
    ∀ (pairs : List (String × Int)) (d : List Row),
      pairs.foldl (fun d p => subFromSkuStock d p.1 p.2)
        (pairs.foldl (fun d p => addToSkuStock d p.1 p.2) d) = d := by
  intro pairs
  induction pairs with
  | nil => intro d; rfl
  | cons p rest ih =>
    intro d
    rw [List.foldl_cons, List.foldl_cons, sub_addFold_comm, sub_add_cancel_rows, ih]

theorem setOrderStatus_override (d : List Row) (orderNumber s1 s2 : String) :
    setOrderStatus (setOrderStatus d orderNumber s1) orderNumber s2 =
      setOrderStatus d orderNumber s2 := by
  rw [setOrderStatus, setOrderStatus, setOrderStatus, List.map_map]
  refine List.map_congr_left (fun r _ => ?_)
  by_cases h : (r.orderNumber == some orderNumber) = true <;>
    simp [Function.comp, h]

theorem toggle_unfulfill_eq (df : List Row) (orderNumber : String)
    (hfound : df.all (fun r => !(r.orderNumber == some orderNumber)) = false)
    (hstat : currentStatusOf df orderNumber = some "Fulfillable") :
    toggleOrderFulfillment df orderNumber =
      (true, none,
        setOrderStatus
          ((groupSumBySku (orderItemsOf df orderNumber)).foldl
            (fun d p => addToSkuStock d p.1 p.2) df)
          orderNumber "Not Fulfillable") := by
  rw [toggleOrderFulfillment]
  rw [if_neg (by simp [hfound]), if_pos (by rw [hstat]; rfl)]

/-- C4: toggling a currently Fulfillable order off and (successfully) back on
restores the row set to `setOrderStatus df orderNumber "Fulfillable"`; in
particular every row's `final_stock` is restored to its pre-toggle value and
the order's rows are `Fulfillable` again. -/
theorem toggle_round_trip (df : List Row) (orderNumber : String)
    (hfound : df.all (fun r => !(r.orderNumber == some orderNumber)) = false)
    (hstat : currentStatusOf df orderNumber = some "Fulfillable")
    (hsucc : (toggleOrderFulfillment
        ((toggleOrderFulfillment df orderNumber).2.2) orderNumber).1 = true) :
    (toggleOrderFulfillment ((toggleOrderFulfillment df orderNumber).2.2) orderNumber).2.2 =
        setOrderStatus df orderNumber "Fulfillable" ∧
      ((toggleOrderFulfillment
          ((toggleOrderFulfillment df orderNumber).2.2) orderNumber).2.2).map
          (fun r => r.finalStock) = df.map (fun r => r.finalStock) ∧
      ∀ r ∈ (toggleOrderFulfillment
          ((toggleOrderFulfillment df orderNumber).2.2) orderNumber).2.2,
        r.orderNumber = some orderNumber → r.fulfillmentStatus = some "Fulfillable" := by
  have htog1 := toggle_unfulfill_eq df orderNumber hfound hstat
  rw [htog1] at hsucc ⊢
  have hex0 : ∃ r ∈ df, (r.orderNumber == some orderNumber) = true :=
    exists_all_eq_false hfound
  have hexadd : ∃ r ∈ (groupSumBySku (orderItemsOf df orderNumber)).foldl
      (fun d p => addToSkuStock d p.1 p.2) df, (r.orderNumber == some orderNumber) = true :=
    exists_orderNumber_addFold _ df orderNumber hex0
  have hex1 : ∃ r ∈ setOrderStatus ((groupSumBySku (orderItemsOf df orderNumber)).foldl
      (fun d p => addToSkuStock d p.1 p.2) df) orderNumber "Not Fulfillable",
      (r.orderNumber == some orderNumber) = true := by
    rw [setOrderStatus]
    refine exists_orderNumber_map _ _ orderNumber (fun r => ?_) hexadd
    by_cases hc : (r.orderNumber == some orderNumber) = true <;> simp [hc]
  have hall1 : ((setOrderStatus ((groupSumBySku (orderItemsOf df orderNumber)).foldl
      (fun d p => addToSkuStock d p.1 p.2) df) orderNumber "Not Fulfillable").all
      (fun r => !(r.orderNumber == some orderNumber))) = false := by
    obtain ⟨r, hm, hp⟩ := hex1
    exact all_neg_eq_false hm hp
  have hstat1 : currentStatusOf (setOrderStatus
      ((groupSumBySku (orderItemsOf df orderNumber)).foldl
        (fun d p => addToSkuStock d p.1 p.2) df) orderNumber "Not Fulfillable") orderNumber =
      some "Not Fulfillable" :=
    currentStatusOf_setOrderStatus _ orderNumber _ hexadd
  have hitems : groupSumBySku (orderItemsOf (setOrderStatus
      ((groupSumBySku (orderItemsOf df orderNumber)).foldl
        (fun d p => addToSkuStock d p.1 p.2) df) orderNumber "Not Fulfillable") orderNumber) =
      groupSumBySku (orderItemsOf df orderNumber) := by
    rw [itemsNeeded_setOrderStatus, itemsNeeded_addFold]
  have hkeys : ∀ p ∈ groupSumBySku (orderItemsOf df orderNumber),
      ∃ r ∈ setOrderStatus ((groupSumBySku (orderItemsOf df orderNumber)).foldl
        (fun d p => addToSkuStock d p.1 p.2) df) orderNumber "Not Fulfillable",
        r.sku = p.1 := by
    intro p hp
    obtain ⟨r, hr, hre⟩ := groupSumBySku_key_mem _ p hp
    exact exists_sku_setOrderStatus _ orderNumber _ p.1
      (exists_sku_addFold _ df p.1 ⟨r, List.mem_of_mem_filter hr, hre⟩)
  rw [toggleOrderFulfillment] at hsucc ⊢
  rw [if_neg (by simp [hall1]), if_neg (by rw [hstat1]; decide)] at hsucc ⊢
  rw [hitems] at hsucc ⊢
  by_cases hlack : ((lackingSkus (setOrderStatus
      ((groupSumBySku (orderItemsOf df orderNumber)).foldl
        (fun d p => addToSkuStock d p.1 p.2) df) orderNumber "Not Fulfillable")
      (groupSumBySku (orderItemsOf df orderNumber))).isEmpty) = true
  · rw [if_pos hlack] at hsucc ⊢
    have hd2 : setOrderStatus (forceDeduct (groupSumBySku (orderItemsOf df orderNumber))
        (setOrderStatus ((groupSumBySku (orderItemsOf df orderNumber)).foldl
          (fun d p => addToSkuStock d p.1 p.2) df) orderNumber "Not Fulfillable"))
        orderNumber "Fulfillable" = setOrderStatus df orderNumber "Fulfillable" := by
      rw [forceDeduct_eq_subFold _ _ hkeys, subFold_setOrderStatus_comm,
        subFold_addFold_cancel, setOrderStatus_override]
    refine ⟨hd2, ?_, ?_⟩
    · rw [hd2, setOrderStatus, List.map_map]
      refine List.map_congr_left (fun r _ => ?_)
      by_cases h : (r.orderNumber == some orderNumber) = true <;>
        simp [Function.comp, h]
    · rw [hd2, setOrderStatus]
      intro r hr hon
      obtain ⟨r0, -, rfl⟩ := List.mem_map.mp hr
      by_cases h : (r0.orderNumber == some orderNumber) = true
      · rw [if_pos h]
      · rw [if_neg h] at hon ⊢
        exact absurd (by simp [hon]) h
  · rw [if_neg hlack] at hsucc
    simp at hsucc

/-- Witness: round-tripping order 1001 over `sampleAnalysisDf`. -/
theorem toggle_round_trip_witness :
    (toggleOrderFulfillment
        ((toggleOrderFulfillment sampleAnalysisDf "1001").2.2) "1001").2.2 =
        setOrderStatus sampleAnalysisDf "1001" "Fulfillable" ∧
      ((toggleOrderFulfillment
          ((toggleOrderFulfillment sampleAnalysisDf "1001").2.2) "1001").2.2).map
          (fun r => r.finalStock) = sampleAnalysisDf.map (fun r => r.finalStock) ∧
      ∀ r ∈ (toggleOrderFulfillment
          ((toggleOrderFulfillment sampleAnalysisDf "1001").2.2) "1001").2.2,
        r.orderNumber = some "1001" → r.fulfillmentStatus = some "Fulfillable" :=
  toggle_round_trip sampleAnalysisDf "1001" (by decide) (by decide) (by decide)

/-! ## C1: per-SKU final stock -/

theorem find?_liveStockInit (stock : List RawStockRow) (k : String) :
    (liveStockInit stock).find? (fun p => p.1 == k)
      = ((cleanStock stock).find? (fun r => r.sku == k)).map (fun r => (r.sku, r.stock)) := by
  unfold liveStockInit
  rw [List.find?_map]
  rfl

theorem stockDecFun_key (sku : String) (q : Int) (k : String) :
    ((fun (p : String × Int) => p.1 == k) ∘
      (fun (p : String × Int) => if p.1 == sku then (p.1, p.2 - q) else p))
      = fun (p : String × Int) => p.1 == k := by
  funext p
  by_cases h : (p.1 == sku) = true
  · simp only [Function.comp_apply, if_pos h]
  · simp only [Function.comp_apply, if_neg h]

theorem find?_stockDec (m : List (String × Int)) (sku q k) :
    (stockDec m sku q).find? (fun p => p.1 == k)
      = (m.find? (fun p => p.1 == k)).map
          (fun p => if p.1 == sku then (p.1, p.2 - q) else p) := by
  unfold stockDec
  rw [List.find?_map, stockDecFun_key]

theorem stockHas_stockDec (m : List (String × Int)) (sku q k) :
    stockHas (stockDec m sku q) k = stockHas m k := by
  unfold stockHas stockDec
  rw [List.any_map, stockDecFun_key]

theorem stockGet_stockDec_self (m : List (String × Int)) (k q)
    (h : stockHas m k = true) : stockGet (stockDec m k q) k = stockGet m k - q := by
  unfold stockGet
  rw [find?_stockDec]
  obtain ⟨p, hp⟩ : ∃ p, m.find? (fun p => p.1 == k) = some p := by
    have h1 : ∃ x ∈ m, (x.1 == k) = true := List.any_eq_true.mp h
    exact Option.isSome_iff_exists.mp (List.find?_isSome.mpr h1)
  have hpk := List.find?_some hp
  rw [hp]
  simp only [Option.map_some']
  rw [if_pos hpk]

theorem stockGet_stockDec_ne (m : List (String × Int)) (sku q k)
    (h : ¬ sku = k) : stockGet (stockDec m sku q) k = stockGet m k := by
  unfold stockGet
  rw [find?_stockDec]
  cases hp : m.find? (fun p => p.1 == k) with
  | none => rfl
  | some p =>
    have hpk : p.1 = k := by
      have := List.find?_some hp
      exact eq_of_beq this
    have hps : (p.1 == sku) = false := by
      rw [hpk]
      exact beq_false_of_ne (fun hk => h hk.symm)
    have hcond : ¬ ((p.1 == sku) = true) := by rw [hps]; exact Bool.false_ne_true
    simp only [Option.map_some']
    rw [if_neg hcond]

theorem stockHas_of_get_ne (m : List (String × Int)) (k : String)
    (h : ¬ stockGet m k = 0) : stockHas m k = true := by
  unfold stockGet at h
  cases hp : m.find? (fun p => p.1 == k) with
  | none => rw [hp] at h; exact absurd rfl h
  | some p =>
    have hmem := List.mem_of_find?_eq_some hp
    have hpk := List.find?_some hp
    exact List.any_eq_true.mpr ⟨p, hmem, hpk⟩

theorem stockHas_iff_find?_isSome (m : List (String × Int)) (k : String) :
    stockHas m k = true ↔ (m.find? (fun p => p.1 == k)).isSome = true := by
  unfold stockHas
  rw [List.any_eq_true, List.find?_isSome]

theorem linesSkuSum_nil (k : String) : linesSkuSum [] k = 0 := rfl

theorem linesSkuSum_cons (it : CleanLine) (rest : List CleanLine) (k : String) :
    linesSkuSum (it :: rest) k
      = (if it.sku == k then it.quantity else 0) + linesSkuSum rest k := by
  unfold linesSkuSum
  rw [List.filter_cons]
  by_cases h : (it.sku == k) = true
  · rw [if_pos h, if_pos h, List.map_cons, List.sum_cons]
  · rw [if_neg h, if_neg h, Int.zero_add]

theorem deductItems_ok_facts :
    ∀ (items : List CleanLine) (m m2 : List (String × Int)),
      deductItems items m = .ok m2 →
      (∀ k, stockHas m2 k = stockHas m k) ∧
      (∀ k, stockGet m2 k = stockGet m k - linesSkuSum items k) := by
  intro items
  induction items with
  | nil =>
    intro m m2 h
    have hm : m = m2 := by
      simpa [deductItems] using h
    subst hm
    exact ⟨fun k => rfl, fun k => by rw [linesSkuSum_nil]; omega⟩
  | cons it rest ih =>
    intro m m2 h
    unfold deductItems at h
    by_cases hhas : stockHas m it.sku = true
    · rw [if_pos hhas] at h
      obtain ⟨ihhas, ihget⟩ := ih (stockDec m it.sku it.quantity) m2 h
      refine ⟨fun k => ?_, fun k => ?_⟩
      · rw [ihhas k, stockHas_stockDec]
      · rw [ihget k, linesSkuSum_cons]
        by_cases hk : it.sku = k
        · subst hk
          rw [stockGet_stockDec_self m it.sku it.quantity hhas,
            if_pos (beq_self_eq_true it.sku)]
          omega
        · rw [stockGet_stockDec_ne m it.sku it.quantity k hk,
            if_neg (by rw [beq_false_of_ne hk]; exact Bool.false_ne_true)]
          omega
    · rw [if_neg hhas] at h
      exact absurd h (by simp)

theorem deductItems_ok_of_has :
    ∀ (items : List CleanLine) (m : List (String × Int)),
      (∀ it ∈ items, stockHas m it.sku = true) →
      ∃ m2, deductItems items m = .ok m2 := by
  intro items
  induction items with
  | nil => intro m _; exact ⟨m, rfl⟩
  | cons it rest ih =>
    intro m hall
    obtain ⟨m2, hm2⟩ := ih (stockDec m it.sku it.quantity)
      (fun x hx => by rw [stockHas_stockDec]; exact hall x (List.mem_cons_of_mem _ hx))
    refine ⟨m2, ?_⟩
    unfold deductItems
    rw [if_pos (hall it (List.mem_cons_self _ _))]
    exact hm2

theorem resultsLookup_cons (p : String × String) (np : List (String × String))
    (onum : String) :
    resultsLookup (p :: np) onum
      = if p.1 == onum then some p.2 else resultsLookup np onum := by
  by_cases h : (p.1 == onum) = true
  · simp [resultsLookup, List.find?, h]
  · simp [resultsLookup, List.find?, h]

theorem resultsLookup_eq_none_of_not_mem (np : List (String × String)) (onum : String)
    (h : ¬ onum ∈ np.map (fun p => p.1)) : resultsLookup np onum = none := by
  unfold resultsLookup
  rw [List.find?_eq_none.mpr]
  · rfl
  · intro x hx hbeq
    exact h (List.mem_map.mpr ⟨x, hx, (eq_of_beq hbeq).symm ▸ rfl⟩)

theorem fulfilledLineQty_nil (lines : List CleanLine) (k : String) :
    fulfilledLineQty lines [] k = 0 := by
  unfold fulfilledLineQty
  have h : ∀ l ∈ lines,
      (l.sku == k && resultsLookup [] l.orderNumber == some "Fulfillable") = false := by
    intro l _
    have h0 : resultsLookup [] l.orderNumber = none := rfl
    rw [h0]
    have h1 : ((none : Option String) == some "Fulfillable") = false := by decide
    rw [h1, Bool.and_false]
  rw [List.filter_congr h, List.filter_false]
  rfl

theorem fulfilledLineQty_cons_line (l : CleanLine) (rest : List CleanLine)
    (results : List (String × String)) (k : String) :
    fulfilledLineQty (l :: rest) results k
      = (if l.sku == k && resultsLookup results l.orderNumber == some "Fulfillable"
          then l.quantity else 0) + fulfilledLineQty rest results k := by
  unfold fulfilledLineQty
  rw [List.filter_cons]
  by_cases h : (l.sku == k && resultsLookup results l.orderNumber == some "Fulfillable") = true
  · rw [if_pos h, if_pos h, List.map_cons, List.sum_cons]
  · rw [if_neg h, if_neg h, Int.zero_add]

theorem orderLines_cons (l : CleanLine) (rest : List CleanLine) (onum : String) :
    orderLines (l :: rest) onum
      = if l.orderNumber == onum then l :: orderLines rest onum
        else orderLines rest onum := by
  unfold orderLines
  rw [List.filter_cons]

theorem fulfilledLineQty_cons_nf (lines : List CleanLine) (np : List (String × String))
    (k onum : String) (h : resultsLookup np onum = none) :
    fulfilledLineQty lines ((onum, "Not Fulfillable") :: np) k
      = fulfilledLineQty lines np k := by
  unfold fulfilledLineQty
  congr 1
  congr 1
  apply List.filter_congr
  intro l _
  rw [resultsLookup_cons]
  by_cases hh : (onum == l.orderNumber) = true
  · rw [if_pos hh]
    have hlo : l.orderNumber = onum := (eq_of_beq hh).symm
    have h2 : resultsLookup np l.orderNumber = none := by rw [hlo]; exact h
    rw [h2]
    have h3 : ((some "Not Fulfillable" : Option String) == some "Fulfillable") = false := by
      decide
    have h4 : ((none : Option String) == some "Fulfillable") = false := by decide
    rw [h3, h4]
  · rw [if_neg hh]

theorem fulfilledLineQty_cons_f (lines : List CleanLine) (np : List (String × String))
    (k onum : String) (h : resultsLookup np onum = none) :
    fulfilledLineQty lines ((onum, "Fulfillable") :: np) k
      = linesSkuSum (orderLines lines onum) k + fulfilledLineQty lines np k := by
  induction lines with
  | nil =>
    have h1 : fulfilledLineQty [] ((onum, "Fulfillable") :: np) k = 0 := rfl
    have h2 : fulfilledLineQty [] np k = 0 := rfl
    have h3 : orderLines [] onum = [] := rfl
    rw [h1, h2, h3, linesSkuSum_nil]
    omega
  | cons l rest ih =>
    rw [fulfilledLineQty_cons_line, fulfilledLineQty_cons_line, orderLines_cons]
    by_cases h1 : (l.orderNumber == onum) = true
    · have hlo : l.orderNumber = onum := eq_of_beq h1
      have hbig : resultsLookup ((onum, "Fulfillable") :: np) l.orderNumber
          = some "Fulfillable" := by
        rw [resultsLookup_cons, if_pos (by rw [hlo]; exact beq_self_eq_true onum)]
      have hnp : resultsLookup np l.orderNumber = none := by rw [hlo]; exact h
      rw [hbig, hnp, if_pos h1, linesSkuSum_cons]
      have h5 : ((some "Fulfillable" : Option String) == some "Fulfillable") = true := by
        decide
      have h6 : ((none : Option String) == some "Fulfillable") = false := by decide
      rw [h5, h6, Bool.and_true, Bool.and_false]
      by_cases h2 : (l.sku == k) = true
      · rw [if_pos h2, if_neg (show ¬(false = true) from by simp), ih]
        omega
      · rw [if_neg h2, if_neg (show ¬(false = true) from by simp), ih]
        omega
    · have hbig : resultsLookup ((onum, "Fulfillable") :: np) l.orderNumber
          = resultsLookup np l.orderNumber := by
        rw [resultsLookup_cons, if_neg (by
          intro hx
          have h2 : l.orderNumber = onum := (eq_of_beq hx).symm
          exact h1 (by rw [h2]; exact beq_self_eq_true onum))]
      rw [hbig, if_neg h1, ih]
      by_cases h2 :
          (l.sku == k && resultsLookup np l.orderNumber == some "Fulfillable") = true
      · rw [if_pos h2]
        omega
      · rw [if_neg h2]
        omega

theorem dedupByKeyAux_id_props :
    ∀ (l seen : List String),
      (∀ x ∈ dedupByKeyAux id seen l, seen.contains x = false) ∧
      (dedupByKeyAux id seen l).Nodup := by
  intro l
  induction l with
  | nil => intro seen; exact ⟨fun x hx => absurd hx (List.not_mem_nil x), List.nodup_nil⟩
  | cons a rest ih =>
    intro seen
    unfold dedupByKeyAux
    by_cases h : seen.contains (id a) = true
    · rw [if_pos h]
      exact ih seen
    · rw [if_neg h]
      obtain ⟨ih1, ih2⟩ := ih (id a :: seen)
      refine ⟨?_, ?_⟩
      · intro x hx
        rcases List.mem_cons.mp hx with hxa | hxt
        · subst hxa
          simpa using h
        · have := ih1 x hxt
          rw [List.contains_cons] at this
          exact (Bool.or_eq_false_iff.mp this).2
      · rw [List.nodup_cons]
        refine ⟨fun hmem => ?_, ih2⟩
        have := ih1 a hmem
        rw [List.contains_cons] at this
        have hself : (a == id a) = true := beq_self_eq_true a
        rw [hself] at this
        simp at this

theorem prioritizedOrders_nodup (lines : List CleanLine) :
    (prioritizedOrders lines).Nodup := by
  unfold prioritizedOrders dedupByKey
  exact ((List.perm_insertionSort _ _).nodup_iff).mpr
    (dedupByKeyAux_id_props (lines.map (fun l => l.orderNumber)) []).2

theorem simulateOrders_ok_invariant :
    ∀ (ons : List String), ons.Nodup →
      ∀ (lines : List CleanLine) (s0 : List (String × Int))
        (res0 : List (String × String)) (st : AllocState),
        simulateOrders lines ons ⟨s0, res0⟩ = .ok st →
        ∃ np : List (String × String),
          st.results = res0 ++ np ∧
          np.map (fun p => p.1) = ons ∧
          (∀ k, stockHas st.liveStock k = stockHas s0 k) ∧
          (∀ k, stockGet st.liveStock k = stockGet s0 k - fulfilledLineQty lines np k) := by
  intro ons
  induction ons with
  | nil =>
    intro _ lines s0 res0 st h
    simp only [simulateOrders] at h
    cases h
    refine ⟨[], by rw [List.append_nil], rfl, fun k => rfl, fun k => ?_⟩
    rw [fulfilledLineQty_nil]
    show stockGet s0 k = stockGet s0 k - 0
    omega
  | cons onum rest ih =>
    intro hnd lines s0 res0 st h
    obtain ⟨honum, hrest⟩ := List.nodup_cons.mp hnd
    simp only [simulateOrders] at h
    cases hstep : allocStep lines ⟨s0, res0⟩ onum with
    | error e => rw [hstep] at h; cases h
    | ok st1 =>
      rw [hstep] at h
      simp only [allocStep] at hstep
      split at hstep
      · next hcan =>
        cases hded : deductItems (orderLines lines onum) s0 with
        | error e => rw [hded] at hstep; cases hstep
        | ok s1 =>
          rw [hded] at hstep
          cases hstep
          obtain ⟨np1, hres, hmap, hhas, hget⟩ :=
            ih hrest lines s1 (res0 ++ [(onum, "Fulfillable")]) st h
          have hlook : resultsLookup np1 onum = none := by
            apply resultsLookup_eq_none_of_not_mem
            rw [hmap]
            exact honum
          obtain ⟨hdhas, hdget⟩ := deductItems_ok_facts (orderLines lines onum) s0 s1 hded
          refine ⟨(onum, "Fulfillable") :: np1, ?_, ?_, fun k => ?_, fun k => ?_⟩
          · rw [hres, List.append_assoc, List.singleton_append]
          · rw [List.map_cons, hmap]
          · rw [hhas k, hdhas k]
          · rw [hget k, hdget k, fulfilledLineQty_cons_f lines np1 k onum hlook]
            omega
      · next hcan =>
        cases hstep
        obtain ⟨np1, hres, hmap, hhas, hget⟩ :=
          ih hrest lines s0 (res0 ++ [(onum, "Not Fulfillable")]) st h
        have hlook : resultsLookup np1 onum = none := by
          apply resultsLookup_eq_none_of_not_mem
          rw [hmap]
          exact honum
        refine ⟨(onum, "Not Fulfillable") :: np1, ?_, ?_, fun k => ?_, fun k => ?_⟩
        · rw [hres, List.append_assoc, List.singleton_append]
        · rw [List.map_cons, hmap]
        · rw [hhas k]
        · rw [hget k, fulfilledLineQty_cons_nf lines np1 k onum hlook]

theorem buildRow_sku (lines : List CleanLine) (recs : List StockRec)
    (live : List (String × Int)) (results : List (String × String))
    (hist : List String) (l : CleanLine) :
    (buildRow lines recs live results hist l).sku = l.sku := rfl

theorem buildRow_stock (lines : List CleanLine) (recs : List StockRec)
    (live : List (String × Int)) (results : List (String × String))
    (hist : List String) (l : CleanLine) :
    (buildRow lines recs live results hist l).stock
      = ((recs.find? (fun r => r.sku == l.sku)).map (fun r => r.stock)).getD 0 := rfl

theorem buildRow_finalStock (lines : List CleanLine) (recs : List StockRec)
    (live : List (String × Int)) (results : List (String × String))
    (hist : List String) (l : CleanLine) :
    (buildRow lines recs live results hist l).finalStock
      = (match (live.find? (fun p => p.1 == l.sku)).map (fun p => p.2) with
         | some v => some v
         | none => (recs.find? (fun r => r.sku == l.sku)).map (fun r => r.stock)) := rfl

theorem fulfilledSkuQty_map_buildRow (lines : List CleanLine) (recs : List StockRec)
    (live : List (String × Int)) (results : List (String × String))
    (hist : List String) (k : String) :
    fulfilledSkuQty (lines.map (buildRow lines recs live results hist)) k
      = fulfilledLineQty lines results k := by
  unfold fulfilledSkuQty fulfilledLineQty
  rw [List.filter_map, List.map_map]
  rfl

/-- C1 (amended): on every successful run, a row whose SKU has a (first)
record in the cleaned stock file shows that record's stock and
`Final_Stock = initial − Σ quantity over Fulfillable rows with that SKU`,
while a row whose SKU is absent from the stock file shows initial stock 0 and
`Final_Stock = NaN` (not 0: `Final_Stock.fillna(Stock)` at analysis.py:146
runs before `Stock.fillna(0)` at :150); rows sharing a SKU always share the
same `Final_Stock`. -/
theorem final_stock_per_sku (stock : List RawStockRow) (orders : List RawOrderRow)
    (history : List String) (out : AnalysisOutput)
    (hok : runAnalysis stock orders history = .ok out)
    (r : Row) (hr : r ∈ out.rows) :
    (match (cleanStock stock).find? (fun s => s.sku == r.sku) with
     | some rec => r.stock = rec.stock ∧
         r.finalStock = some (rec.stock - fulfilledSkuQty out.rows r.sku)
     | none => r.stock = 0 ∧ r.finalStock = none) ∧
    (out.rows.all
      (fun r2 => !(r2.sku == r.sku) || r2.finalStock == r.finalStock)) = true := by
  rw [runAnalysis] at hok
  dsimp only at hok
  split at hok
  · cases hok
  · next st hsim =>
    cases hok
    obtain ⟨np, hres, hmap, hhas, hget⟩ :=
      simulateOrders_ok_invariant (prioritizedOrders (cleanOrders orders))
        (prioritizedOrders_nodup _) (cleanOrders orders) (liveStockInit stock) [] st hsim
    rw [List.nil_append] at hres
    dsimp only at hr ⊢
    obtain ⟨l, hl, rfl⟩ := List.mem_map.mp hr
    have hFS : fulfilledSkuQty
        ((cleanOrders orders).map
          (buildRow (cleanOrders orders) (cleanStock stock) st.liveStock st.results history))
        l.sku = fulfilledLineQty (cleanOrders orders) np l.sku := by
      rw [fulfilledSkuQty_map_buildRow, hres]
    rw [buildRow_sku]
    constructor
    · cases hfind : (cleanStock stock).find? (fun s => s.sku == l.sku) with
      | some rec =>
        have hfs := List.find?_some hfind
        have hrecsku : rec.sku = l.sku := eq_of_beq hfs
        have hfl : (liveStockInit stock).find? (fun p => p.1 == l.sku)
            = some (rec.sku, rec.stock) := by
          rw [find?_liveStockInit, hfind]
          rfl
        have hget0 : stockGet (liveStockInit stock) l.sku = rec.stock := by
          unfold stockGet
          rw [hfl]
        have hhas0 : stockHas (liveStockInit stock) l.sku = true := by
          rw [stockHas_iff_find?_isSome, hfl]
          rfl
        have hhasSt : stockHas st.liveStock l.sku = true := by
          rw [hhas l.sku]
          exact hhas0
        obtain ⟨p, hp⟩ :=
          Option.isSome_iff_exists.mp ((stockHas_iff_find?_isSome _ _).mp hhasSt)
        have hpv : p.2 = stockGet st.liveStock l.sku := by
          unfold stockGet
          rw [hp]
        refine ⟨?_, ?_⟩
        · rw [buildRow_stock, hfind]
          rfl
        · rw [buildRow_finalStock, hp]
          simp only [Option.map_some']
          have hv : stockGet st.liveStock l.sku
              = rec.stock - fulfilledLineQty (cleanOrders orders) np l.sku := by
            rw [hget l.sku, hget0]
          rw [hpv, hFS, hv]
      | none =>
        have hfl : (liveStockInit stock).find? (fun p => p.1 == l.sku) = none := by
          rw [find?_liveStockInit, hfind]
          rfl
        have hhas0 : stockHas (liveStockInit stock) l.sku = false := by
          cases hb : stockHas (liveStockInit stock) l.sku with
          | false => rfl
          | true =>
            have := (stockHas_iff_find?_isSome _ _).mp hb
            rw [hfl] at this
            cases this
        have hstnone : st.liveStock.find? (fun p => p.1 == l.sku) = none := by
          cases hq : st.liveStock.find? (fun p => p.1 == l.sku) with
          | none => rfl
          | some p =>
            have hb : stockHas st.liveStock l.sku = true :=
              (stockHas_iff_find?_isSome _ _).mpr (by rw [hq]; rfl)
            rw [hhas l.sku, hhas0] at hb
            cases hb
        refine ⟨?_, ?_⟩
        · rw [buildRow_stock, hfind]
          rfl
        · rw [buildRow_finalStock, hstnone, hfind]
          rfl
    · rw [List.all_eq_true]
      intro r2 hr2
      obtain ⟨l2, hl2, rfl⟩ := List.mem_map.mp hr2
      try dsimp only
      by_cases hsk : ((buildRow (cleanOrders orders) (cleanStock stock) st.liveStock
          st.results history l2).sku == l.sku) = true
      · have hsk2 : l2.sku = l.sku := eq_of_beq hsk
        have hfe : (buildRow (cleanOrders orders) (cleanStock stock) st.liveStock
            st.results history l2).finalStock
            = (buildRow (cleanOrders orders) (cleanStock stock) st.liveStock
                st.results history l).finalStock := by
          rw [buildRow_finalStock, buildRow_finalStock, hsk2]
        rw [hsk, hfe, beq_self_eq_true]
        simp
      · rw [Bool.of_not_eq_true hsk]
        simp

/-- C1 (counterexample): on the stockless run of one order for the unlisted
SKU Z, the single output row shows initial stock 0 but `Final_Stock = NaN`
(`none`), not the claimed `initial − Σ fulfilled = 0`: `none ≠ some 0`. -/
theorem final_stock_absent_sku_is_nan :
    (outputRows (runAnalysis [] [orphanLine 1] [])).map (fun r => (r.stock, r.finalStock))
        = [(0, none)] ∧
      (outputRows (runAnalysis [] [orphanLine 1] [])).map
          (fun r => some (r.stock
            - fulfilledSkuQty (outputRows (runAnalysis [] [orphanLine 1] [])) r.sku))
        = [some 0] ∧
      ¬ ((none : Option Int) = some 0) :=
  ⟨by decide, by decide, by decide⟩

/-- Witness: the SKU-A row of the `c1Stock`/`c1Orders` run. -/
theorem final_stock_per_sku_witness :
    runAnalysis c1Stock c1Orders [] = .ok c1Out ∧ c1Row ∈ c1Out.rows ∧
      ((match (cleanStock c1Stock).find? (fun s => s.sku == c1Row.sku) with
        | some rec => c1Row.stock = rec.stock ∧
            c1Row.finalStock = some (rec.stock - fulfilledSkuQty c1Out.rows c1Row.sku)
        | none => c1Row.stock = 0 ∧ c1Row.finalStock = none) ∧
       (c1Out.rows.all
         (fun r2 => !(r2.sku == c1Row.sku) || r2.finalStock == c1Row.finalStock)) = true) :=
  ⟨by decide, by decide,
    final_stock_per_sku c1Stock c1Orders [] c1Out (by decide) c1Row (by decide)⟩

/-! ## C5: priority ordering -/

theorem charListLe_total : ∀ (a b : List Char),
    charListLe a b = true ∨ charListLe b a = true := by
  intro a
  induction a with
  | nil => intro b; exact Or.inl rfl
  | cons x xs ih =>
    intro b
    cases b with
    | nil => exact Or.inr rfl
    | cons y ys =>
      simp only [charListLe]
      rcases lt_trichotomy x y with h | h | h
      · exact Or.inl (by rw [if_pos h])
      · subst h
        rw [if_neg (lt_irrefl x), if_neg (lt_irrefl x), if_neg (lt_irrefl x),
          if_neg (lt_irrefl x)]
        exact ih ys
      · exact Or.inr (by rw [if_pos h])

theorem charListLe_trans : ∀ (a b c : List Char),
    charListLe a b = true → charListLe b c = true → charListLe a c = true := by
  intro a
  induction a with
  | nil => intro b c _ _; rfl
  | cons x xs ih =>
    intro b c hab hbc
    cases b with
    | nil => exact absurd hab (by simp [charListLe])
    | cons y ys =>
      cases c with
      | nil => exact absurd hbc (by simp [charListLe])
      | cons z zs =>
        simp only [charListLe] at hab hbc ⊢
        by_cases h1 : x < y
        · by_cases h2 : y < z
          · rw [if_pos (lt_trans h1 h2)]
          · rw [if_neg h2] at hbc
            by_cases h3 : z < y
            · rw [if_pos h3] at hbc; cases hbc
            · have hyz : y = z := le_antisymm (not_lt.mp h3) (not_lt.mp h2)
              subst hyz
              rw [if_pos h1]
        · rw [if_neg h1] at hab
          by_cases h4 : y < x
          · rw [if_pos h4] at hab; cases hab
          · have hxy : x = y := le_antisymm (not_lt.mp h4) (not_lt.mp h1)
            subst hxy
            rw [if_neg h4] at hab
            by_cases h2 : x < z
            · rw [if_pos h2]
            · rw [if_neg h2] at hbc ⊢
              by_cases h3 : z < x
              · rw [if_pos h3] at hbc; cases hbc
              · rw [if_neg h3] at hbc ⊢
                exact ih ys zs hab hbc

theorem charListLe_antisymm : ∀ (a b : List Char),
    charListLe a b = true → charListLe b a = true → a = b := by
  intro a
  induction a with
  | nil =>
    intro b _ hba
    cases b with
    | nil => rfl
    | cons y ys => exact absurd hba (by simp [charListLe])
  | cons x xs ih =>
    intro b hab hba
    cases b with
    | nil => exact absurd hab (by simp [charListLe])
    | cons y ys =>
      simp only [charListLe] at hab hba
      rcases lt_trichotomy x y with h | h | h
      · rw [if_neg (asymm h), if_pos h] at hba
        cases hba
      · subst h
        rw [if_neg (lt_irrefl x), if_neg (lt_irrefl x)] at hab hba
        rw [ih ys hab hba]
      · rw [if_neg (asymm h), if_pos h] at hab
        cases hab

theorem strLe_total (a b : String) : strLe a b ∨ strLe b a :=
  charListLe_total a.data b.data

theorem strLe_trans {a b c : String} (h1 : strLe a b) (h2 : strLe b c) : strLe a c :=
  charListLe_trans a.data b.data c.data h1 h2

theorem strLe_antisymm {a b : String} (h1 : strLe a b) (h2 : strLe b a) : a = b :=
  String.ext (charListLe_antisymm a.data b.data h1 h2)

instance (lines : List CleanLine) : IsTotal String (prioR lines) := ⟨by
  intro a b
  rcases Nat.lt_trichotomy (itemCount lines a) (itemCount lines b) with h | h | h
  · exact Or.inr (Or.inl h)
  · rcases strLe_total a b with hs | hs
    · exact Or.inl (Or.inr ⟨h, hs⟩)
    · exact Or.inr (Or.inr ⟨h.symm, hs⟩)
  · exact Or.inl (Or.inl h)⟩

instance (lines : List CleanLine) : IsTrans String (prioR lines) := ⟨by
  intro a b c hab hbc
  rcases hab with h1 | ⟨h1, h1s⟩
  · rcases hbc with h2 | ⟨h2, h2s⟩
    · exact Or.inl (lt_trans h2 h1)
    · exact Or.inl (by omega)
  · rcases hbc with h2 | ⟨h2, h2s⟩
    · exact Or.inl (by omega)
    · exact Or.inr ⟨by omega, strLe_trans h1s h2s⟩⟩

instance (lines : List CleanLine) : IsAntisymm String (prioR lines) := ⟨by
  intro a b hab hba
  rcases hab with h1 | ⟨h1, h1s⟩
  · rcases hba with h2 | ⟨h2, h2s⟩
    · omega
    · omega
  · rcases hba with h2 | ⟨h2, h2s⟩
    · omega
    · exact strLe_antisymm h1s h2s⟩

theorem mem_dedupByKeyAux_id :
    ∀ (l seen : List String) (x : String),
      x ∈ dedupByKeyAux id seen l ↔ (x ∈ l ∧ seen.contains x = false) := by
  intro l
  induction l with
  | nil => intro seen x; simp [dedupByKeyAux]
  | cons a rest ih =>
    intro seen x
    unfold dedupByKeyAux
    by_cases h : seen.contains (id a) = true
    · rw [if_pos h, ih seen x]
      constructor
      · rintro ⟨hx, hs⟩
        exact ⟨List.mem_cons_of_mem _ hx, hs⟩
      · rintro ⟨hx, hs⟩
        rcases List.mem_cons.mp hx with rfl | hx2
        · simp only [id] at h
          rw [h] at hs
          cases hs
        · exact ⟨hx2, hs⟩
    · rw [if_neg h]
      simp only [List.mem_cons]
      rw [ih (id a :: seen) x]
      constructor
      · rintro (rfl | ⟨hx, hs⟩)
        · refine ⟨Or.inl rfl, ?_⟩
          simp only [id] at h
          exact Bool.of_not_eq_true h
        · rw [List.contains_cons] at hs
          exact ⟨Or.inr hx, (Bool.or_eq_false_iff.mp hs).2⟩
      · rintro ⟨rfl | hx, hs⟩
        · exact Or.inl rfl
        · by_cases hxa : x = a
          · exact Or.inl hxa
          · refine Or.inr ⟨hx, ?_⟩
            rw [List.contains_cons]
            apply Bool.or_eq_false_iff.mpr
            refine ⟨?_, hs⟩
            simp only [id]
            exact beq_false_of_ne hxa

theorem mem_dedupByKey_id (l : List String) (x : String) :
    x ∈ dedupByKey id l ↔ x ∈ l := by
  unfold dedupByKey
  rw [mem_dedupByKeyAux_id]
  have h0 : (([] : List String).contains x) = false := rfl
  rw [h0]
  simp

theorem pairwise_count_split :
    ∀ (P : List String) (cnt : String → Nat),
      P.Pairwise (fun a b => cnt b ≤ cnt a) →
      ∃ M S, P = M ++ S ∧ (∀ x ∈ M, 2 ≤ cnt x) ∧ (∀ x ∈ S, cnt x < 2) := by
  intro P
  induction P with
  | nil =>
    intro cnt _
    exact ⟨[], [], rfl, fun x hx => absurd hx (List.not_mem_nil x),
      fun x hx => absurd hx (List.not_mem_nil x)⟩
  | cons a rest ih =>
    intro cnt hp
    rw [List.pairwise_cons] at hp
    obtain ⟨ha, hrest⟩ := hp
    by_cases h2 : 2 ≤ cnt a
    · obtain ⟨M, S, hsplit, hM, hS⟩ := ih cnt hrest
      refine ⟨a :: M, S, ?_, ?_, hS⟩
      · rw [hsplit, List.cons_append]
      · intro x hx
        rcases List.mem_cons.mp hx with rfl | hx2
        · exact h2
        · exact hM x hx2
    · refine ⟨[], a :: rest, rfl, fun x hx => absurd hx (List.not_mem_nil x), ?_⟩
      intro x hx
      rcases List.mem_cons.mp hx with rfl | hx2
      · omega
      · have := ha x hx2
        omega

theorem demandIn_nil_ons (lines : List CleanLine) (k : String) :
    demandIn lines [] k = 0 := by
  unfold demandIn
  have h : ∀ l ∈ lines,
      (l.sku == k && ([] : List String).contains l.orderNumber) = false := by
    intro l _
    have h0 : (([] : List String).contains l.orderNumber) = false := rfl
    rw [h0, Bool.and_false]
  rw [List.filter_congr h, List.filter_false]
  rfl

theorem demandIn_cons_line (l : CleanLine) (rest : List CleanLine) (ons : List String)
    (k : String) :
    demandIn (l :: rest) ons k
      = (if l.sku == k && ons.contains l.orderNumber then l.quantity else 0)
        + demandIn rest ons k := by
  unfold demandIn
  rw [List.filter_cons]
  by_cases h : (l.sku == k && ons.contains l.orderNumber) = true
  · rw [if_pos h, if_pos h, List.map_cons, List.sum_cons]
  · rw [if_neg h, if_neg h, Int.zero_add]

theorem demandIn_cons (lines : List CleanLine) (onum : String) (M : List String)
    (k : String) (h : ¬ onum ∈ M) :
    demandIn lines (onum :: M) k
      = linesSkuSum (orderLines lines onum) k + demandIn lines M k := by
  induction lines with
  | nil =>
    have h1 : demandIn [] (onum :: M) k = 0 := rfl
    have h2 : demandIn [] M k = 0 := rfl
    have h3 : orderLines [] onum = [] := rfl
    rw [h1, h2, h3, linesSkuSum_nil]
    omega
  | cons l rest ih =>
    rw [demandIn_cons_line, demandIn_cons_line, orderLines_cons]
    have hcont : (onum :: M).contains l.orderNumber
        = ((l.orderNumber == onum) || M.contains l.orderNumber) := List.contains_cons
    by_cases h1 : (l.orderNumber == onum) = true
    · have hM : M.contains l.orderNumber = false := by
        have hlo : l.orderNumber = onum := eq_of_beq h1
        cases hc : M.contains l.orderNumber with
        | false => rfl
        | true => exact absurd (hlo ▸ List.elem_iff.mp hc) h
      rw [hcont, if_pos h1, h1, hM, Bool.true_or, linesSkuSum_cons, Bool.and_true,
        Bool.and_false]
      by_cases h2 : (l.sku == k) = true
      · rw [if_pos h2, if_neg (show ¬(false = true) from by simp), ih]
        omega
      · rw [if_neg h2, if_neg (show ¬(false = true) from by simp), ih]
        omega
    · have hsame : (onum :: M).contains l.orderNumber = M.contains l.orderNumber := by
        rw [hcont, Bool.of_not_eq_true h1, Bool.false_or]
      rw [hsame, if_neg h1, ih]
      by_cases h2 : (l.sku == k && M.contains l.orderNumber) = true
      · rw [if_pos h2]
        omega
      · rw [if_neg h2]
        omega

theorem multiDemand_eq_demandIn (lines : List CleanLine) (M : List String) (k : String)
    (hiff : ∀ l ∈ lines,
      (M.contains l.orderNumber = true ↔ 2 ≤ itemCount lines l.orderNumber)) :
    multiDemand lines k = demandIn lines M k := by
  unfold multiDemand demandIn
  congr 1
  congr 1
  apply List.filter_congr
  intro l hl
  congr 1
  cases hc : M.contains l.orderNumber with
  | true => exact decide_eq_true ((hiff l hl).mp hc)
  | false =>
    apply decide_eq_false
    intro hcnt
    rw [(hiff l hl).mpr hcnt] at hc
    cases hc

theorem itemCount_pos_of_mem (lines : List CleanLine) (l : CleanLine) (hl : l ∈ lines) :
    1 ≤ itemCount lines l.orderNumber := by
  unfold itemCount
  have hmem : l ∈ orderLines lines l.orderNumber :=
    List.mem_filter.mpr ⟨hl, beq_self_eq_true l.orderNumber⟩
  have hpos := List.length_pos.mpr (List.ne_nil_of_mem hmem)
  omega

theorem mem_prioritizedOrders (lines : List CleanLine) (l : CleanLine) (hl : l ∈ lines) :
    l.orderNumber ∈ prioritizedOrders lines := by
  unfold prioritizedOrders
  apply (List.perm_insertionSort _ _).mem_iff.mpr
  rw [mem_dedupByKey_id]
  exact List.mem_map.mpr ⟨l, hl, rfl⟩

theorem simulate_multi_phase :
    ∀ (M : List String) (lines : List CleanLine) (s : List (String × Int))
      (res : List (String × String)),
      M.Nodup →
      (∀ l ∈ lines, 1 ≤ l.quantity) →
      (∀ l ∈ lines, stockGet s l.sku = demandIn lines M l.sku) →
      ∃ s2, simulateOrders lines M ⟨s, res⟩
          = .ok ⟨s2, res ++ M.map (fun o => (o, "Fulfillable"))⟩ ∧
        ∀ l ∈ lines, stockGet s2 l.sku = 0 := by
  intro M
  induction M with
  | nil =>
    intro lines s res _ _ hinv
    refine ⟨s, ?_, fun l hl => ?_⟩
    · simp only [simulateOrders, List.map_nil, List.append_nil]
    · rw [hinv l hl, demandIn_nil_ons]
  | cons onum M1 ih =>
    intro lines s res hnd hq hinv
    obtain ⟨honum, hM1⟩ := List.nodup_cons.mp hnd
    have hfit : ∀ it ∈ orderLines lines onum, it.quantity ≤ stockGet s it.sku := by
      intro it hit
      have hitl : it ∈ lines := (List.mem_filter.mp hit).1
      rw [hinv it hitl, demandIn_cons lines onum M1 it.sku honum]
      have hle : it.quantity ≤ linesSkuSum (orderLines lines onum) it.sku := by
        unfold linesSkuSum
        apply List.single_le_sum
        · intro x hx
          obtain ⟨l2, hl2, rfl⟩ := List.mem_map.mp hx
          have hl2b : l2 ∈ lines := (List.mem_filter.mp ((List.mem_filter.mp hl2).1)).1
          have := hq l2 hl2b
          omega
        · apply List.mem_map.mpr
          refine ⟨it, ?_, rfl⟩
          exact List.mem_filter.mpr ⟨hit, beq_self_eq_true it.sku⟩
      have hnn : 0 ≤ demandIn lines M1 it.sku := by
        unfold demandIn
        apply List.sum_nonneg
        intro x hx
        obtain ⟨l2, hl2, rfl⟩ := List.mem_map.mp hx
        have hl2b : l2 ∈ lines := (List.mem_filter.mp hl2).1
        have := hq l2 hl2b
        omega
      omega
    have hcan : canFulfillOrder s (orderLines lines onum) = true := by
      unfold canFulfillOrder
      rw [List.all_eq_true]
      intro it hit
      exact decide_eq_true (hfit it hit)
    have hhasall : ∀ it ∈ orderLines lines onum, stockHas s it.sku = true := by
      intro it hit
      apply stockHas_of_get_ne
      have ha := hfit it hit
      have hb := hq it (List.mem_filter.mp hit).1
      omega
    obtain ⟨s1, hded⟩ := deductItems_ok_of_has (orderLines lines onum) s hhasall
    obtain ⟨hdhas, hdget⟩ := deductItems_ok_facts (orderLines lines onum) s s1 hded
    have hinv1 : ∀ l ∈ lines, stockGet s1 l.sku = demandIn lines M1 l.sku := by
      intro l hl
      rw [hdget l.sku, hinv l hl, demandIn_cons lines onum M1 l.sku honum]
      omega
    obtain ⟨s2, hsim, hzero⟩ := ih lines s1 (res ++ [(onum, "Fulfillable")]) hM1 hq hinv1
    refine ⟨s2, ?_, hzero⟩
    simp only [simulateOrders, allocStep]
    rw [if_pos hcan, hded]
    show simulateOrders lines M1 ⟨s1, res ++ [(onum, "Fulfillable")]⟩
        = .ok ⟨s2, res ++ ((onum :: M1).map (fun o => (o, "Fulfillable")))⟩
    rw [hsim, List.map_cons, List.append_assoc, List.singleton_append]

theorem simulate_single_phase :
    ∀ (S : List String) (lines : List CleanLine) (s : List (String × Int))
      (res : List (String × String)),
      (∀ onum ∈ S, itemCount lines onum = 1) →
      (∀ l ∈ lines, 1 ≤ l.quantity) →
      (∀ l ∈ lines, stockGet s l.sku = 0) →
      simulateOrders lines S ⟨s, res⟩
        = .ok ⟨s, res ++ S.map (fun o => (o, "Not Fulfillable"))⟩ := by
  intro S
  induction S with
  | nil =>
    intro lines s res _ _ _
    simp only [simulateOrders, List.map_nil, List.append_nil]
  | cons onum S1 ih =>
    intro lines s res hcount hq hzero
    have hc1 : (orderLines lines onum).length = 1 := hcount onum (List.mem_cons_self _ _)
    obtain ⟨l0, hl0⟩ := List.length_eq_one.mp hc1
    have hl0mem : l0 ∈ lines := by
      have hm : l0 ∈ orderLines lines onum := by
        rw [hl0]
        exact List.mem_cons_self _ _
      exact (List.mem_filter.mp hm).1
    have hcan : canFulfillOrder s (orderLines lines onum) = false := by
      unfold canFulfillOrder
      rw [hl0]
      have ha := hq l0 hl0mem
      have hb := hzero l0 hl0mem
      have hd : decide (l0.quantity ≤ stockGet s l0.sku) = false := by
        apply decide_eq_false
        omega
      simp [hd]
    simp only [simulateOrders, allocStep]
    rw [hcan, if_neg (show ¬(false = true) from by simp)]
    show simulateOrders lines S1 ⟨s, res ++ [(onum, "Not Fulfillable")]⟩
        = .ok ⟨s, res ++ ((onum :: S1).map (fun o => (o, "Not Fulfillable")))⟩
    rw [ih lines s (res ++ [(onum, "Not Fulfillable")])
        (fun x hx => hcount x (List.mem_cons_of_mem _ hx)) hq hzero,
      List.map_cons, List.append_assoc, List.singleton_append]

theorem simulateOrders_append (lines : List CleanLine) :
    ∀ (xs ys : List String) (st : AllocState),
      simulateOrders lines (xs ++ ys) st
        = (match simulateOrders lines xs st with
           | .ok st1 => simulateOrders lines ys st1
           | .error e => .error e) := by
  intro xs
  induction xs with
  | nil => intro ys st; rfl
  | cons x xs ih =>
    intro ys st
    rw [List.cons_append]
    simp only [simulateOrders]
    cases hstep : allocStep lines st x with
    | error e => rfl
    | ok st1 => exact ih ys st1

theorem resultsLookup_map_const_mem :
    ∀ (xs : List String) (v : String) (rest : List (String × String)) (x : String),
      x ∈ xs →
      resultsLookup (xs.map (fun o => (o, v)) ++ rest) x = some v := by
  intro xs
  induction xs with
  | nil => intro v rest x hx; exact absurd hx (List.not_mem_nil x)
  | cons a xs ih =>
    intro v rest x hx
    rw [List.map_cons, List.cons_append, resultsLookup_cons]
    by_cases h : ((a, v).1 == x) = true
    · rw [if_pos h]
    · rw [if_neg h]
      apply ih
      rcases List.mem_cons.mp hx with rfl | hx2
      · exact absurd (show ((x, v).1 == x) = true from beq_self_eq_true x) h
      · exact hx2

theorem resultsLookup_map_const_not_mem :
    ∀ (xs : List String) (v : String) (rest : List (String × String)) (x : String),
      ¬ x ∈ xs →
      resultsLookup (xs.map (fun o => (o, v)) ++ rest) x = resultsLookup rest x := by
  intro xs
  induction xs with
  | nil => intro v rest x _; rfl
  | cons a xs ih =>
    intro v rest x hx
    rw [List.map_cons, List.cons_append, resultsLookup_cons]
    have hne : ¬ ((a, v).1 == x) = true := by
      intro hb
      have hax : a = x := eq_of_beq hb
      exact hx (List.mem_cons.mpr (Or.inl hax.symm))
    rw [if_neg hne]
    exact ih v rest x (fun hmem => hx (List.mem_cons_of_mem _ hmem))

/-- C5: the engine processes distinct orders in the unique sequence sorted by
`item_count` descending then order number ascending (any sorted permutation of
the distinct order numbers equals `prioritizedOrders`); and when every line
quantity is ≥ 1 and the initial stock of every demanded SKU exactly equals the
combined demand of the multi-item orders, the run succeeds, every multi-item
order is marked Fulfillable and every single-item order Not Fulfillable,
whatever the orders' lexical names. -/
theorem priority_order_and_scenario (stock : List RawStockRow)
    (orders : List RawOrderRow) (history : List String)
    (h1 : ∀ l ∈ cleanOrders orders, 1 ≤ l.quantity)
    (h2 : ∀ l ∈ cleanOrders orders,
      stockGet (liveStockInit stock) l.sku = multiDemand (cleanOrders orders) l.sku) :
    (∀ ls : List CleanLine,
      (prioritizedOrders ls).Perm (dedupByKey id (ls.map (fun l => l.orderNumber))) ∧
      (prioritizedOrders ls).Sorted (prioR ls) ∧
      ∀ Q : List String, Q.Perm (dedupByKey id (ls.map (fun l => l.orderNumber))) →
        Q.Sorted (prioR ls) → Q = prioritizedOrders ls) ∧
    (runAnalysis stock orders history).isOk = true ∧
    (∀ r ∈ outputRows (runAnalysis stock orders history),
      ∀ onum, r.orderNumber = some onum →
        (2 ≤ itemCount (cleanOrders orders) onum →
          r.fulfillmentStatus = some "Fulfillable") ∧
        (itemCount (cleanOrders orders) onum = 1 →
          r.fulfillmentStatus = some "Not Fulfillable")) := by
  refine ⟨fun ls => ⟨List.perm_insertionSort _ _, List.sorted_insertionSort _ _,
    fun Q hQp hQs => List.eq_of_perm_of_sorted
      (hQp.trans (List.perm_insertionSort _ _).symm) hQs
      (List.sorted_insertionSort _ _)⟩, ?_⟩
  have hPsort : (prioritizedOrders (cleanOrders orders)).Sorted
      (prioR (cleanOrders orders)) := List.sorted_insertionSort _ _
  have hPpair : (prioritizedOrders (cleanOrders orders)).Pairwise
      (fun a b =>
        itemCount (cleanOrders orders) b ≤ itemCount (cleanOrders orders) a) := by
    apply List.Pairwise.imp ?_ hPsort
    intro a b hab
    rcases hab with h | ⟨h, _⟩
    · omega
    · omega
  obtain ⟨M, S, hsplit, hM0, hS0⟩ :=
    pairwise_count_split (prioritizedOrders (cleanOrders orders))
      (fun onum => itemCount (cleanOrders orders) onum) hPpair
  have hM : ∀ x ∈ M, 2 ≤ itemCount (cleanOrders orders) x := hM0
  have hS : ∀ x ∈ S, itemCount (cleanOrders orders) x < 2 := hS0
  have hPnodup := prioritizedOrders_nodup (cleanOrders orders)
  rw [hsplit] at hPnodup
  have hMnodup : M.Nodup := hPnodup.of_append_left
  have hmemP : ∀ l ∈ cleanOrders orders, l.orderNumber ∈ M ++ S := by
    intro l hl
    rw [← hsplit]
    exact mem_prioritizedOrders (cleanOrders orders) l hl
  have hiff : ∀ l ∈ cleanOrders orders,
      (M.contains l.orderNumber = true ↔
        2 ≤ itemCount (cleanOrders orders) l.orderNumber) := by
    intro l hl
    constructor
    · intro hc
      exact hM l.orderNumber (List.elem_iff.mp hc)
    · intro hcnt
      rcases List.mem_append.mp (hmemP l hl) with hm | hs
      · exact List.elem_iff.mpr hm
      · have := hS l.orderNumber hs
        omega
  have hinv0 : ∀ l ∈ cleanOrders orders,
      stockGet (liveStockInit stock) l.sku = demandIn (cleanOrders orders) M l.sku := by
    intro l hl
    rw [h2 l hl]
    exact multiDemand_eq_demandIn (cleanOrders orders) M l.sku hiff
  obtain ⟨s2, hsimM, hzero⟩ :=
    simulate_multi_phase M (cleanOrders orders) (liveStockInit stock) [] hMnodup h1 hinv0
  have hScount : ∀ x ∈ S, itemCount (cleanOrders orders) x = 1 := by
    intro x hx
    have hlt := hS x hx
    have hxP : x ∈ prioritizedOrders (cleanOrders orders) := by
      rw [hsplit]
      exact List.mem_append.mpr (Or.inr hx)
    have hxD : x ∈ (cleanOrders orders).map (fun l => l.orderNumber) := by
      have hxd := (List.perm_insertionSort (prioR (cleanOrders orders)) _).mem_iff.mp hxP
      exact (mem_dedupByKey_id _ _).mp hxd
    obtain ⟨l, hl, rfl⟩ := List.mem_map.mp hxD
    have := itemCount_pos_of_mem (cleanOrders orders) l hl
    omega
  have hsimS := simulate_single_phase S (cleanOrders orders) s2
    (([] : List (String × String)) ++ M.map (fun o => (o, "Fulfillable")))
    hScount h1 hzero
  have hsim : simulateOrders (cleanOrders orders) (prioritizedOrders (cleanOrders orders))
      ⟨liveStockInit stock, []⟩
      = .ok ⟨s2, M.map (fun o => (o, "Fulfillable"))
          ++ S.map (fun o => (o, "Not Fulfillable"))⟩ := by
    rw [hsplit, simulateOrders_append, hsimM]
    show simulateOrders (cleanOrders orders) S
        ⟨s2, [] ++ M.map (fun o => (o, "Fulfillable"))⟩
        = .ok ⟨s2, M.map (fun o => (o, "Fulfillable"))
            ++ S.map (fun o => (o, "Not Fulfillable"))⟩
    rw [hsimS, List.nil_append]
  have hrows : outputRows (runAnalysis stock orders history)
      = (cleanOrders orders).map
          (buildRow (cleanOrders orders) (cleanStock stock) s2
            (M.map (fun o => (o, "Fulfillable")) ++ S.map (fun o => (o, "Not Fulfillable")))
            history) := by
    rw [runAnalysis]
    dsimp only
    rw [hsim]
    rfl
  refine ⟨?_, ?_⟩
  · rw [runAnalysis]
    dsimp only
    rw [hsim]
    rfl
  · intro r hr onum honum
    rw [hrows] at hr
    obtain ⟨l, hl, rfl⟩ := List.mem_map.mp hr
    have honum2 : some l.orderNumber = some onum := honum
    have hlo : l.orderNumber = onum := Option.some.inj honum2
    subst hlo
    have hstat : (buildRow (cleanOrders orders) (cleanStock stock) s2
        (M.map (fun o => (o, "Fulfillable")) ++ S.map (fun o => (o, "Not Fulfillable")))
        history l).fulfillmentStatus
        = resultsLookup
            (M.map (fun o => (o, "Fulfillable")) ++ S.map (fun o => (o, "Not Fulfillable")))
            l.orderNumber := rfl
    constructor
    · intro hcnt2
      rw [hstat]
      exact resultsLookup_map_const_mem M "Fulfillable" _ l.orderNumber
        (List.elem_iff.mp ((hiff l hl).mpr hcnt2))
    · intro hcnt1
      rw [hstat]
      have hnotM : ¬ l.orderNumber ∈ M := by
        intro hm
        have := hM l.orderNumber hm
        omega
      rw [resultsLookup_map_const_not_mem M "Fulfillable" _ l.orderNumber hnotM]
      have hmemS : l.orderNumber ∈ S := by
        rcases List.mem_append.mp (hmemP l hl) with hm | hs
        · exact absurd hm hnotM
        · exact hs
      rw [← List.append_nil (S.map (fun o => (o, "Not Fulfillable")))]
      exact resultsLookup_map_const_mem S "Not Fulfillable" [] l.orderNumber hmemS

/-- Witness: the four-order scenario `prioOrders` over `prioStock` (M1, M2
multi-item; S1, S2 single-item; stock exactly covers M1 + M2). -/
theorem priority_order_and_scenario_witness :
    ((∀ l ∈ cleanOrders prioOrders, 1 ≤ l.quantity) ∧
      (∀ l ∈ cleanOrders prioOrders,
        stockGet (liveStockInit prioStock) l.sku
          = multiDemand (cleanOrders prioOrders) l.sku)) ∧
    ((∀ ls : List CleanLine,
      (prioritizedOrders ls).Perm (dedupByKey id (ls.map (fun l => l.orderNumber))) ∧
      (prioritizedOrders ls).Sorted (prioR ls) ∧
      ∀ Q : List String, Q.Perm (dedupByKey id (ls.map (fun l => l.orderNumber))) →
        Q.Sorted (prioR ls) → Q = prioritizedOrders ls) ∧
    (runAnalysis prioStock prioOrders []).isOk = true ∧
    (∀ r ∈ outputRows (runAnalysis prioStock prioOrders []),
      ∀ onum, r.orderNumber = some onum →
        (2 ≤ itemCount (cleanOrders prioOrders) onum →
          r.fulfillmentStatus = some "Fulfillable") ∧
        (itemCount (cleanOrders prioOrders) onum = 1 →
          r.fulfillmentStatus = some "Not Fulfillable"))) :=
  ⟨⟨by decide, by decide⟩,
    priority_order_and_scenario prioStock prioOrders [] (by decide) (by decide)⟩

end ShopifyTool
